import Mathlib

/-!
Shallow embedding of the tournament clustering and statistics aggregation
engine of the `rivals_stats` repository (`src/final.py`; the functions
`cluster_tournament_matches`, `calculate_per_10`, `extract_player_stats`,
`format_duration` and `analyze_tournaments`; `src/marvel_rivals_dashboard.py`
contains textually identical copies of the fragments relevant here).

Modelling conventions:
* Python numbers (stat values, ratios) are embedded as `Rat`; durations and
  timestamps as `Int` (timestamps in epoch seconds; Python `datetime`
  subtraction and comparison is order-isomorphic to `Int` arithmetic on
  epoch seconds; `timedelta(days=1)` is `86400` seconds).
* Python dicts used as sparse stat bags are embedded as association lists
  `List (String × Rat)` with first-match lookup (`alookup`), mirroring the
  tracker payload shape where `stats[key]` is `{"value": v}` (collapsed to
  `v`).
* Dictionary reads `d.get(k, 0)` become `(alookup l k).getD 0`; direct
  reads `d[k]` that can raise `KeyError` become `Except` failures.
* The Selenium fetch / on-disk cache collaborator is out of scope and is
  abstracted as a caller-supplied `lookup : String → Option DetailedMatch`
  (`None` means no detailed record is obtainable, triggering the fallback
  extraction path, exactly as in `analyze_tournaments`).
* Python's `defaultdict` keyed by player name is an insertion-ordered
  association list `List (String × PStats)` with lookup-or-create update.
-/

namespace RivalsStats

set_option maxRecDepth 2000

/-- Association-list lookup, first match wins (Python dict read). -/
def alookup {α : Type} : List (String × α) → String → Option α
  | [], _ => none
  | (k, v) :: rest, key => if k = key then some v else alookup rest key

/-- Python dict write `d[key] = v`: replace the value if the key is present,
otherwise append the new binding. -/
def setF (fs : List (String × Rat)) (key : String) (v : Rat) : List (String × Rat) :=
  if (alookup fs key).isSome then
    fs.map (fun e => if e.1 = key then (e.1, v) else e)
  else fs ++ [(key, v)]

/-- One participant segment of a raw or detailed match record
(`segment['type']`, `segment['metadata']` and the sparse `segment['stats']`
bag). -/
structure Segment where
  segType : String
  handle : String
  teamId : Option Nat
  result : String
  heroes : List String
  isMvp : Bool
  isSvp : Bool
  stats : List (String × Rat)
deriving DecidableEq, Inhabited

/-- One raw entry in the player's match-history feed (`match['attributes']`
plus `match['metadata']` plus the embedded overview `segments`). -/
structure RawMatch where
  mode : String
  match_id : String
  timestamp : Int
  map_name : String
  map_mode : String
  duration : Int
  winning_team : Nat
  scores : List Int
  segments : List Segment
deriving DecidableEq, Inhabited

/-- The parsed per-match summary dict built inside
`cluster_tournament_matches` for tournament-mode matches. -/
structure MatchSummary where
  match_id : String
  timestamp : Int
  map_name : String
  map_mode : String
  duration : Int
  winning_team : Nat
  scores : List Int
  segments : List Segment
deriving DecidableEq, Inhabited

/-- The full input feed: `{'ign': ..., 'matches': [...]}`. The source key
is `matches`; that word is a Lean keyword, hence the field name
`matchList`. -/
structure InputData where
  ign : String
  matchList : List RawMatch
deriving DecidableEq, Inhabited

/-- The summary dict appended to `matches` in `cluster_tournament_matches`. -/
def toSummary (m : RawMatch) : MatchSummary :=
  { match_id := m.match_id, timestamp := m.timestamp, map_name := m.map_name,
    map_mode := m.map_mode, duration := m.duration,
    winning_team := m.winning_team, scores := m.scores, segments := m.segments }

/-- The tournament-mode filter applied at the top of
`cluster_tournament_matches`. -/
def tournamentMatches (d : InputData) : List MatchSummary :=
  (d.matchList.filter (fun m => m.mode == "tournament")).map toSummary

/-- Timestamp order used for `matches.sort(key=...)` and the sortedness
statements. -/
def tsLe (a b : MatchSummary) : Prop := a.timestamp ≤ b.timestamp

instance : DecidableRel tsLe := fun a b => Int.decLe a.timestamp b.timestamp

instance : IsTotal MatchSummary tsLe :=
  ⟨fun a b => Int.le_total a.timestamp b.timestamp⟩

instance : IsTrans MatchSummary tsLe :=
  ⟨fun _ _ _ h₁ h₂ => le_trans h₁ h₂⟩

/-- The tournament-mode matches after the stable ascending sort by
timestamp (insertion sort places earlier-input elements first among equal
timestamps, agreeing with Python's stable sort). -/
def sortedMatches (d : InputData) : List MatchSummary :=
  (tournamentMatches d).insertionSort tsLe

/-- The scan loop of `cluster_tournament_matches`: `revPrev` holds the
current cluster minus its most recent element, in reverse order, and `cur`
is the most recent element (`current[-1]` in the source). -/
def clusterGo (revPrev : List MatchSummary) (cur : MatchSummary) :
    List MatchSummary → List (List MatchSummary)
  | [] => [(cur :: revPrev).reverse]
  | m :: rest =>
      if m.timestamp - cur.timestamp ≤ 86400 then
        clusterGo (cur :: revPrev) m rest
      else
        (cur :: revPrev).reverse :: clusterGo [] m rest

/-- `cluster_tournament_matches`: filter to tournament mode, sort by
timestamp, and split into clusters at gaps exceeding 24 hours. -/
def cluster_tournament_matches (d : InputData) : List (List MatchSummary) :=
  match sortedMatches d with
  | [] => []
  | m :: rest => clusterGo [] m rest

/-- `calculate_per_10`: per-10-minute rate, `0` when the duration yields a
non-positive number of minutes. -/
def calculate_per_10 (value : Rat) (duration_seconds : Int) : Rat :=
  let minutes : Rat := (duration_seconds : Rat) / 60
  if minutes > 0 then value / minutes * 10 else 0

/-- A resolved per-player per-match record (the `player_info` dict).
Required metadata entries are record fields; every numeric entry that
downstream code reads with `.get(key, 0)` lives in the sparse `fields`
bag. -/
structure PlayerInfo where
  name : String
  team_id : Option Nat
  result : String
  heroes : List String
  is_mvp : Bool
  is_svp : Bool
  fields : List (String × Rat)
deriving DecidableEq, Inhabited

/-- Read a numeric entry of a `player_info` dict with default `0`
(Python `player.get(key, 0)`). -/
def getF (p : PlayerInfo) (key : String) : Rat := (alookup p.fields key).getD 0

/-- First hero of a player record (`player.get('heroes', ["Unknown"])[0]`;
the `heroes` list is non-empty on every constructible record, so the
`"Unknown"` default is never reached from the program's own paths). -/
def heroOf (p : PlayerInfo) : String := p.heroes.headD "Unknown"

/-- The fixed whitelist of raw counters copied from the stats bag in
`extract_player_stats`. -/
def statKeys : List String :=
  ["kills", "deaths", "assists", "kdRatio", "kdaRatio",
   "totalHeroDamage", "totalHeroHeal", "totalDamageTaken",
   "lastKills", "soloKills", "headKills", "sessionSurvivalKills",
   "maxContinueKills", "mainAttacks", "mainAttackHits",
   "continueKills3", "shieldHits", "chaosHits", "summonerHits"]

/-- Copy each whitelisted counter present in the stats bag, in whitelist
order (`for key in [...]: if key in stats: ...`). -/
def copyStats (bag : List (String × Rat)) : List (String × Rat) :=
  statKeys.filterMap (fun k => (alookup bag k).map (fun v => (k, v)))

/-- The second half of a detailed match record: authoritative duration and
participant segments. -/
structure DetailedMatch where
  duration : Int
  segments : List Segment
deriving DecidableEq, Inhabited

/-- The per-10-minute derived entries added when `match_duration` is
non-zero (Python truthiness of the int). -/
def per10Fields (base : List (String × Rat)) (dur : Int) : List (String × Rat) :=
  if dur ≠ 0 then
    [("kills_per_10", calculate_per_10 ((alookup base "kills").getD 0) dur),
     ("deaths_per_10", calculate_per_10 ((alookup base "deaths").getD 0) dur),
     ("assists_per_10", calculate_per_10 ((alookup base "assists").getD 0) dur),
     ("damage_per_10", calculate_per_10 ((alookup base "totalHeroDamage").getD 0) dur),
     ("healing_per_10", calculate_per_10 ((alookup base "totalHeroHeal").getD 0) dur),
     ("damage_taken_per_10", calculate_per_10 ((alookup base "totalDamageTaken").getD 0) dur),
     ("soloKills_per_10", calculate_per_10 ((alookup base "soloKills").getD 0) dur)]
  else []

/-- Build the `player_info` dict for one player segment in
`extract_player_stats` (everything up to and including the
`kill_participation = 0` placeholder). -/
def buildPlayerInfo (dur : Int) (seg : Segment) : PlayerInfo :=
  let base := copyStats seg.stats
  let acc : Rat :=
    if (alookup base "mainAttacks").getD 0 > 0 then
      (alookup base "mainAttackHits").getD 0 / (alookup base "mainAttacks").getD 0 * 100
    else 0
  { name := seg.handle, team_id := seg.teamId, result := seg.result,
    heroes := if seg.heroes.isEmpty then ["Unknown"] else seg.heroes,
    is_mvp := seg.isMvp, is_svp := seg.isSvp,
    fields := base ++ per10Fields base dur ++
      [("accuracy", acc), ("kill_participation", 0)] }

/-- Sum of the `kills` entries over one side (`sum(p.get('kills', 0) ...)`). -/
def sumKills (g : List PlayerInfo) : Rat := (g.map (fun p => getF p "kills")).sum

/-- Sum of the `assists` entries over one side. -/
def sumAssists (g : List PlayerInfo) : Rat := (g.map (fun p => getF p "assists")).sum

/-- Kill-participation backfill for one side: when the side's kill total is
truthy (non-zero), overwrite each member's `kill_participation`. -/
def backfillKP (g : List PlayerInfo) : List PlayerInfo :=
  let total := sumKills g
  if total ≠ 0 then
    g.map (fun p =>
      let kp := (getF p "kills" + getF p "assists") / total * 100
      { p with fields := setF p.fields "kill_participation" kp })
  else g

/-- The reference player's team id inside one detailed match: the first
`player` segment whose handle equals the reference handle (its `teamId` may
itself be absent). -/
def mainTeamOf (md : DetailedMatch) (ign : String) : Option Nat :=
  (md.segments.find? (fun s => s.segType == "player" && s.handle == ign)).bind
    (fun s => s.teamId)

/-- Membership test for the reference side
(`main_team is not None and team_id == main_team`). -/
def onMainTeam (mt : Option Nat) (p : PlayerInfo) : Bool :=
  mt.isSome && p.team_id == mt

/-- `extract_player_stats`: build every player segment's record, split by
the reference team, and backfill kill participation on each side
independently. -/
def extract_player_stats (md : DetailedMatch) (ign : String) :
    List PlayerInfo × List PlayerInfo :=
  let mt := mainTeamOf md ign
  let ps := (md.segments.filter (fun s => s.segType == "player")).map
    (buildPlayerInfo md.duration)
  (backfillKP (ps.filter (onMainTeam mt)),
   backfillKP (ps.filter (fun p => !(onMainTeam mt p))))

/-- Two-digit zero padding of `f"{n:02d}"` (the sign occupies a pad slot,
as in Python). -/
def pad2 (n : Int) : String :=
  if 0 ≤ n ∧ n < 10 then "0" ++ toString n else toString n

/-- `format_duration`: `divmod(seconds, 60)` rendered `MM:SS`
(Python floor division). -/
def format_duration (seconds : Int) : String :=
  pad2 (Int.ediv seconds 60) ++ ":" ++ pad2 (Int.emod seconds 60)

/-- Failure mode of a run of `analyze_tournaments`: the explicit
`ValueError("Player team could not be identified.")` or a Python `KeyError`
raised by a direct read of a missing stats key on the fallback path. -/
inductive AErr where
  | teamNotFound
  | missingStat (key : String)
deriving DecidableEq

/-- Direct stats read `segment['stats'][key]['value']` on the fallback
path: a missing key raises `KeyError`. -/
def requireStat (seg : Segment) (key : String) : Except AErr Rat :=
  match alookup seg.stats key with
  | some v => Except.ok v
  | none => Except.error (AErr.missingStat key)

/-- The fallback `info` dict built from one overview segment
(`analyze_tournaments`, fallback branch): `kills`, `deaths`, `assists`,
`kdaRatio` and `totalHeroDamage` are read by direct indexing (fatal when
absent, in key order); only `totalHeroHeal` is read with a default of 0. -/
def fallbackInfo (seg : Segment) : Except AErr PlayerInfo :=
  match requireStat seg "kills" with
  | Except.error e => Except.error e
  | Except.ok kills =>
  match requireStat seg "deaths" with
  | Except.error e => Except.error e
  | Except.ok deaths =>
  match requireStat seg "assists" with
  | Except.error e => Except.error e
  | Except.ok assists =>
  match requireStat seg "kdaRatio" with
  | Except.error e => Except.error e
  | Except.ok kdaVal =>
  match requireStat seg "totalHeroDamage" with
  | Except.error e => Except.error e
  | Except.ok dmg =>
  Except.ok
    { name := seg.handle, team_id := seg.teamId, result := seg.result,
      heroes := if seg.heroes.isEmpty then ["Unknown"] else seg.heroes,
      is_mvp := false, is_svp := false,
      fields := [("kills", kills), ("deaths", deaths), ("assists", assists),
                 ("kdaRatio", kdaVal), ("totalHeroDamage", dmg),
                 ("totalHeroHeal", (alookup seg.stats "totalHeroHeal").getD 0)] }

/-- Fallback extraction over a match's overview segments, classified by
equality of the segment's team id with the globally precomputed reference
team id. -/
def fallbackSplit (pteam : Nat) :
    List Segment → Except AErr (List PlayerInfo × List PlayerInfo)
  | [] => Except.ok ([], [])
  | seg :: rest =>
      if seg.segType = "overview" then
        match fallbackInfo seg with
        | Except.error e => Except.error e
        | Except.ok info =>
        match fallbackSplit pteam rest with
        | Except.error e => Except.error e
        | Except.ok (te, op) =>
            if info.team_id = some pteam then Except.ok (info :: te, op)
            else Except.ok (te, info :: op)
      else fallbackSplit pteam rest

/-- Per-match resolution inside `analyze_tournaments`: use the detailed
record when the (cache/fetch) collaborator yields one, otherwise fall back
to the overview segments. -/
def resolveMatch (lookup : String → Option DetailedMatch) (ign : String)
    (pteam : Nat) (m : MatchSummary) :
    Except AErr (List PlayerInfo × List PlayerInfo) :=
  match lookup m.match_id with
  | some dm => Except.ok (extract_player_stats dm ign)
  | none => fallbackSplit pteam m.segments

/-- One per-match performance snapshot appended to a player's
`match_performances` log. -/
structure Perf where
  match_id : String
  hero : String
  result : String
  kills : Rat
  deaths : Rat
  assists : Rat
  kda : Rat
  damage_per_10 : Rat
  healing_per_10 : Rat
  kills_per_10 : Rat
  deaths_per_10 : Rat
  assists_per_10 : Rat
  kill_participation : Rat
  accuracy : Rat
  solo_kills : Rat
  soloKills_per_10 : Rat
  last_kills : Rat
  fb_per_10 : Rat
  head_kills : Rat
  is_mvp : Bool
  is_svp : Bool
deriving DecidableEq, Inhabited

/-- The running per-player tournament aggregate (the defaultdict record of
`analyze_tournaments`). `avg_kda` is, as in the source, the running sum of
per-match KDA ratios until finalization divides it. -/
structure PStats where
  matches_played : Nat
  wins : Nat
  losses : Nat
  heroes_played : List String
  total_kills : Rat
  total_last_kills : Rat
  total_deaths : Rat
  total_assists : Rat
  total_damage : Rat
  total_healing : Rat
  total_damage_taken : Rat
  total_solo_kills : Rat
  total_head_kills : Rat
  total_shield_hits : Rat
  total_kill_participation : Rat
  total_minutes : Rat
  avg_kda : Rat
  best_kda : Rat
  best_hero : Option String
  match_performances : List Perf
deriving DecidableEq, Inhabited

/-- The zero-initialized aggregate created on first sighting of a player
name. -/
def initPStats : PStats :=
  { matches_played := 0, wins := 0, losses := 0, heroes_played := [],
    total_kills := 0, total_last_kills := 0, total_deaths := 0,
    total_assists := 0, total_damage := 0, total_healing := 0,
    total_damage_taken := 0, total_solo_kills := 0, total_head_kills := 0,
    total_shield_hits := 0, total_kill_participation := 0,
    total_minutes := 0, avg_kda := 0, best_kda := 0, best_hero := none,
    match_performances := [] }

/-- Python `set.add` on the heroes-played set, modelled as an
insertion-ordered duplicate-free list. -/
def addHero (l : List String) (h : String) : List String :=
  if h ∈ l then l else l ++ [h]

/-- The performance snapshot recorded for one team-side player in one
match; per-10 rates here use the raw summary's `duration`. -/
def mkPerf (m : MatchSummary) (p : PlayerInfo) : Perf :=
  { match_id := m.match_id, hero := heroOf p, result := p.result,
    kills := getF p "kills", deaths := getF p "deaths",
    assists := getF p "assists", kda := getF p "kdaRatio",
    damage_per_10 := calculate_per_10 (getF p "totalHeroDamage") m.duration,
    healing_per_10 := calculate_per_10 (getF p "totalHeroHeal") m.duration,
    kills_per_10 := calculate_per_10 (getF p "kills") m.duration,
    deaths_per_10 := calculate_per_10 (getF p "deaths") m.duration,
    assists_per_10 := calculate_per_10 (getF p "assists") m.duration,
    kill_participation := getF p "kill_participation",
    accuracy := getF p "accuracy",
    solo_kills := getF p "soloKills",
    soloKills_per_10 := calculate_per_10 (getF p "soloKills") m.duration,
    last_kills := getF p "lastKills",
    fb_per_10 := calculate_per_10 (getF p "lastKills") m.duration,
    head_kills := getF p "headKills",
    is_mvp := p.is_mvp, is_svp := p.is_svp }

/-- Folding one team-side player record of one match into that player's
running aggregate (the body of `for player in team_stats:`). -/
def updatePlayer (m : MatchSummary) (p : PlayerInfo) (s : PStats) : PStats :=
  let kda := getF p "kdaRatio"
  { matches_played := s.matches_played + 1,
    total_minutes := s.total_minutes + (m.duration : Rat) / 60,
    wins := if p.result = "win" then s.wins + 1 else s.wins,
    losses := if p.result = "win" then s.losses else s.losses + 1,
    heroes_played := p.heroes.foldl addHero s.heroes_played,
    total_kills := s.total_kills + getF p "kills",
    total_deaths := s.total_deaths + getF p "deaths",
    total_assists := s.total_assists + getF p "assists",
    total_damage := s.total_damage + getF p "totalHeroDamage",
    total_healing := s.total_healing + getF p "totalHeroHeal",
    total_damage_taken := s.total_damage_taken + getF p "totalDamageTaken",
    total_solo_kills := s.total_solo_kills + getF p "soloKills",
    total_last_kills := s.total_last_kills + getF p "lastKills",
    total_head_kills := s.total_head_kills + getF p "headKills",
    total_shield_hits := s.total_shield_hits + getF p "shieldHits",
    total_kill_participation :=
      s.total_kill_participation + getF p "kill_participation",
    avg_kda := s.avg_kda + kda,
    best_kda := if kda > s.best_kda then kda else s.best_kda,
    best_hero := if kda > s.best_kda then some (heroOf p) else s.best_hero,
    match_performances := s.match_performances ++ [mkPerf m p] }

/-- Lookup-or-create update of the insertion-ordered player-stats map
(the `defaultdict` access followed by in-place mutation). -/
def updInMap (mp : List (String × PStats)) (name : String)
    (f : PStats → PStats) : List (String × PStats) :=
  if (alookup mp name).isSome then
    mp.map (fun e => if e.1 = name then (e.1, f e.2) else e)
  else mp ++ [(name, f initPStats)]

/-- The per-match summary dict appended to `tournament_info['matches']`.
The `score` field abstracts the rendered score string as the ordered pair
of entries indexed by the reference team id and its complement (`none`
when the raw `scores` list is empty, rendered `"N/A"`); out-of-range
indexing of malformed score lists is not modelled. The `timestamp` field
keeps the instant rather than its `strftime` rendering. -/
structure MatchInfo where
  id : String
  map : String
  mode : String
  result : String
  duration : String
  duration_seconds : Int
  score : Option (Int × Int)
  timestamp : Int
  team_stats : List PlayerInfo
  opponent_stats : List PlayerInfo
deriving DecidableEq, Inhabited

/-- Build the per-match summary dict. -/
def mkMatchInfo (pteam : Nat) (m : MatchSummary) (mres : String)
    (team opp : List PlayerInfo) : MatchInfo :=
  { id := m.match_id, map := m.map_name, mode := m.map_mode, result := mres,
    duration := format_duration m.duration, duration_seconds := m.duration,
    score := if m.scores.isEmpty then none
             else some (m.scores.getD pteam 0, m.scores.getD (1 - pteam) 0),
    timestamp := m.timestamp, team_stats := team, opponent_stats := opp }

/-- The pre-finalization state of one tournament aggregate. -/
structure TournamentInfo where
  id : Nat
  start_date : Int
  end_date : Int
  match_count : Nat
  matchInfos : List MatchInfo
  player_stats : List (String × PStats)
deriving DecidableEq, Inhabited

/-- Fold one resolved match into the tournament aggregate: update every
team-side player's running stats, determine the reference player's match
result (`"Unknown"` when the handle appears on neither side), and append
the match summary. -/
def stepMatch (ign : String) (pteam : Nat) (ti : TournamentInfo)
    (m : MatchSummary) (team opp : List PlayerInfo) : TournamentInfo :=
  let pstats := team.foldl (fun mp p => updInMap mp p.name (updatePlayer m p))
    ti.player_stats
  let mres := (((team ++ opp).find? (fun p => p.name == ign)).map
    (fun p => p.result)).getD "Unknown"
  { ti with player_stats := pstats,
            matchInfos := ti.matchInfos ++ [mkMatchInfo pteam m mres team opp] }

/-- The `for match in tournament:` loop: resolve then fold, propagating the
first fatal resolution failure. -/
def foldMatches (lookup : String → Option DetailedMatch) (ign : String)
    (pteam : Nat) (ti : TournamentInfo) :
    List MatchSummary → Except AErr TournamentInfo
  | [] => Except.ok ti
  | m :: rest =>
      match resolveMatch lookup ign pteam m with
      | Except.error e => Except.error e
      | Except.ok (team, opp) =>
          foldMatches lookup ign pteam (stepMatch ign pteam ti m team opp) rest

/-- The per-match averages added at finalization (`avg_kda` here is the
mean; `win_rate` is `wins / matches_played * 100`). -/
structure Avgs where
  avg_kda : Rat
  avg_kills : Rat
  avg_deaths : Rat
  avg_assists : Rat
  avg_damage : Rat
  avg_healing : Rat
  avg_damage_taken : Rat
  avg_solo_kills : Rat
  avg_last_kills : Rat
  avg_head_kills : Rat
  avg_shield_hits : Rat
  avg_kill_participation : Rat
  win_rate : Rat
deriving DecidableEq, Inhabited

/-- The per-10-minute averages, present only when `total_minutes > 0`. -/
structure Per10Avgs where
  avg_kills_per_10 : Rat
  avg_fb_per_10 : Rat
  avg_solo_kills_per_10 : Rat
  avg_deaths_per_10 : Rat
  avg_assists_per_10 : Rat
  avg_damage_per_10 : Rat
  avg_healing_per_10 : Rat
  avg_damage_taken_per_10 : Rat
deriving DecidableEq, Inhabited

/-- A finalized per-player aggregate: the running core plus the average
groups, which exist exactly when the source adds the corresponding dict
keys (`avgs` iff `matches_played > 0`, `per10` additionally requiring
`total_minutes > 0`). -/
structure FinalStats where
  core : PStats
  heroes_played : List String
  avgs : Option Avgs
  per10 : Option Per10Avgs
deriving DecidableEq, Inhabited

/-- Finalization of one player's aggregate. -/
def finalizeStats (s : PStats) : FinalStats :=
  if s.matches_played > 0 then
    { core := s, heroes_played := s.heroes_played,
      avgs := some
        { avg_kda := s.avg_kda / (s.matches_played : Rat),
          avg_kills := s.total_kills / (s.matches_played : Rat),
          avg_deaths := s.total_deaths / (s.matches_played : Rat),
          avg_assists := s.total_assists / (s.matches_played : Rat),
          avg_damage := s.total_damage / (s.matches_played : Rat),
          avg_healing := s.total_healing / (s.matches_played : Rat),
          avg_damage_taken := s.total_damage_taken / (s.matches_played : Rat),
          avg_solo_kills := s.total_solo_kills / (s.matches_played : Rat),
          avg_last_kills := s.total_last_kills / (s.matches_played : Rat),
          avg_head_kills := s.total_head_kills / (s.matches_played : Rat),
          avg_shield_hits := s.total_shield_hits / (s.matches_played : Rat),
          avg_kill_participation :=
            s.total_kill_participation / (s.matches_played : Rat),
          win_rate := (s.wins : Rat) / (s.matches_played : Rat) * 100 },
      per10 :=
        if s.total_minutes > 0 then
          some
            { avg_kills_per_10 := s.total_kills / s.total_minutes * 10,
              avg_fb_per_10 := s.total_last_kills / s.total_minutes * 10,
              avg_solo_kills_per_10 := s.total_solo_kills / s.total_minutes * 10,
              avg_deaths_per_10 := s.total_deaths / s.total_minutes * 10,
              avg_assists_per_10 := s.total_assists / s.total_minutes * 10,
              avg_damage_per_10 := s.total_damage / s.total_minutes * 10,
              avg_healing_per_10 := s.total_healing / s.total_minutes * 10,
              avg_damage_taken_per_10 :=
                s.total_damage_taken / s.total_minutes * 10 }
        else none }
  else { core := s, heroes_played := s.heroes_played, avgs := none, per10 := none }

/-- One finalized tournament aggregate. -/
structure TournamentResult where
  id : Nat
  start_date : Int
  end_date : Int
  match_count : Nat
  matchInfos : List MatchInfo
  player_stats : List (String × FinalStats)
deriving DecidableEq, Inhabited

/-- Used only for the `tournament[0]` / `tournament[-1]` reads, which the
source performs on provably non-empty clusters. -/
def msDefault : MatchSummary := default

/-- Process one cluster: initialize the aggregate, fold every match in
cluster order, then finalize every player's averages. -/
def processTournament (lookup : String → Option DetailedMatch) (ign : String)
    (pteam : Nat) (idx : Nat) (cluster : List MatchSummary) :
    Except AErr TournamentResult :=
  let ti0 : TournamentInfo :=
    { id := idx + 1, start_date := (cluster.headD msDefault).timestamp,
      end_date := (cluster.getLastD msDefault).timestamp,
      match_count := cluster.length, matchInfos := [], player_stats := [] }
  match foldMatches lookup ign pteam ti0 cluster with
  | Except.error e => Except.error e
  | Except.ok ti =>
      Except.ok
        { id := ti.id, start_date := ti.start_date, end_date := ti.end_date,
          match_count := ti.match_count, matchInfos := ti.matchInfos,
          player_stats := ti.player_stats.map (fun e => (e.1, finalizeStats e.2)) }

/-- The `for idx, tournament in enumerate(...)` loop, aborting the whole
run on the first fatal per-match failure (as the Python exception does). -/
def analyzeClusters (lookup : String → Option DetailedMatch) (ign : String)
    (pteam : Nat) : Nat → List (List MatchSummary) →
    Except AErr (List TournamentResult)
  | _, [] => Except.ok []
  | idx, c :: rest =>
      match processTournament lookup ign pteam idx c with
      | Except.error e => Except.error e
      | Except.ok tr =>
          match analyzeClusters lookup ign pteam (idx + 1) rest with
          | Except.error e => Except.error e
          | Except.ok trs => Except.ok (tr :: trs)

/-- The team id the global precondition scan reads from one raw match: the
first overview segment whose handle equals the reference handle — and only
that one, because the inner loop breaks there — contributes its (possibly
absent) `teamId`. -/
def teamFromMatch (ign : String) (m : RawMatch) : Option Nat :=
  (m.segments.find? (fun s => s.segType == "overview" && s.handle == ign)).bind
    (fun s => s.teamId)

/-- The global reference-team scan at the top of `analyze_tournaments`:
first match whose first reference-handle overview segment carries a team
id. -/
def findPlayerTeam (d : InputData) : Option Nat :=
  d.matchList.findSome? (teamFromMatch d.ign)

/-- `analyze_tournaments` without its I/O plumbing: check the global
reference-team precondition, cluster, then process every cluster. -/
def analyze_tournaments (lookup : String → Option DetailedMatch)
    (d : InputData) : Except AErr (List TournamentResult) :=
  match findPlayerTeam d with
  | none => Except.error AErr.teamNotFound
  | some pteam =>
      analyzeClusters lookup d.ign pteam 0 (cluster_tournament_matches d)

/-- Adjacent matches within one cluster are at most 24 hours apart. -/
def gapLe (a b : MatchSummary) : Prop := b.timestamp - a.timestamp ≤ 86400

/-- The gap from the last match of one cluster to the first match of the
next exceeds 24 hours. -/
def clusterGapGt (c₁ c₂ : List MatchSummary) : Prop :=
  ∀ a ∈ c₁.getLast?, ∀ b ∈ c₂.head?, b.timestamp - a.timestamp > 86400

/-- The team side produced by per-match resolution, when resolution
succeeds. -/
def teamSideOf (lookup : String → Option DetailedMatch) (ign : String)
    (pteam : Nat) (m : MatchSummary) : Option (List PlayerInfo) :=
  match resolveMatch lookup ign pteam m with
  | Except.ok (te, _) => some te
  | Except.error _ => none

/-- Specification-side characterization used for claim C8: the performance
log expected for a player — one snapshot per cluster match whose resolved
team side contains the player, in cluster order. -/
def specPerfLog (lookup : String → Option DetailedMatch) (ign : String)
    (pteam : Nat) (cluster : List MatchSummary) (name : String) : List Perf :=
  cluster.filterMap (fun m =>
    (teamSideOf lookup ign pteam m).bind (fun te =>
      (te.find? (fun p => p.name == name)).map (fun p => mkPerf m p)))

/-- The per-match KDA ratio read by the aggregation loop. -/
def kdaOf (q : MatchSummary × PlayerInfo) : Rat := getF q.2 "kdaRatio"

/-- One player's running aggregate after folding a sequence of team-side
appearances, exactly as the per-player entry of the stats map evolves. -/
def foldUpd (l : List (MatchSummary × PlayerInfo)) : PStats :=
  l.foldl (fun s q => updatePlayer q.1 q.2 s) initPStats

/-- Specification-side characterization used for claim C7: the maximum of 0
and all per-match KDA ratios. -/
def maxKda (l : List (MatchSummary × PlayerInfo)) : Rat :=
  (l.map kdaOf).foldl max 0

/-- Specification-side characterization used for claim C7: the hero of the
first-processed appearance attaining a given KDA value. -/
def firstHeroAt (l : List (MatchSummary × PlayerInfo)) (v : Rat) : Option String :=
  (l.find? (fun q => kdaOf q == v)).map (fun q => heroOf q.2)

/-- Project one finalized player aggregate out of a whole run's result. -/
def getPlayerFinal (r : Except AErr (List TournamentResult)) (i : Nat)
    (name : String) : Option FinalStats :=
  match r with
  | Except.ok res => (res.get? i).bind (fun t => alookup t.player_stats name)
  | Except.error _ => none

/-- A resolver that never produces a detailed record (pure fallback runs). -/
def noDetail : String → Option DetailedMatch := fun _ => none

/-- Overview segment literal for example inputs. -/
def oseg (h : String) (tid : Option Nat) (res : String) (hero : String)
    (stats : List (String × Rat)) : Segment :=
  { segType := "overview", handle := h, teamId := tid, result := res,
    heroes := [hero], isMvp := false, isSvp := false, stats := stats }

/-- Player segment literal (detailed records) for example inputs. -/
def pseg (h : String) (tid : Option Nat) (res : String) (hero : String)
    (stats : List (String × Rat)) : Segment :=
  { segType := "player", handle := h, teamId := tid, result := res,
    heroes := [hero], isMvp := false, isSvp := false, stats := stats }

/-- A stats bag holding exactly the six fallback counters. -/
def fullStats (k d a kda dmg heal : Rat) : List (String × Rat) :=
  [("kills", k), ("deaths", d), ("assists", a), ("kdaRatio", kda),
   ("totalHeroDamage", dmg), ("totalHeroHeal", heal)]

/-- Tournament-mode raw match literal for example inputs. -/
def rmatch (id : String) (ts dur : Int) (segs : List Segment) : RawMatch :=
  { mode := "tournament", match_id := id, timestamp := ts,
    map_name := "Map", map_mode := "Mode", duration := dur,
    winning_team := 0, scores := [2, 1], segments := segs }

/-- Claim C2's concrete input: three tournament matches at epoch seconds 0,
3600 (one hour later) and 111600 (30 hours after the second); the reference
player `P` wins match 1 with 10/2/3 in 600 s and loses match 2 with 4/6/1
in 900 s. -/
def dC2 : InputData :=
  { ign := "P",
    matchList :=
      [rmatch "m_1" 0 600
        [oseg "P" (some 0) "win" "Hulk" (fullStats 10 2 3 (13/2) 1000 0),
         oseg "E" (some 1) "loss" "Thor" (fullStats 2 8 1 (3/8) 500 0)],
       rmatch "m_2" 3600 900
        [oseg "P" (some 0) "loss" "Hulk" (fullStats 4 6 1 (5/6) 800 0),
         oseg "E" (some 1) "win" "Thor" (fullStats 9 3 2 (11/3) 900 0)],
       rmatch "m_3" 111600 300
        [oseg "P" (some 0) "win" "Storm" (fullStats 3 1 0 3 400 0),
         oseg "E" (some 1) "loss" "Thor" (fullStats 1 3 1 (2/3) 200 0)]] }

/-- Claim C1's counterexample input: the single tournament match's overview
segment for the reference player has a stats bag without the `kills` key
(the other required counters are present). -/
def dC1cx : InputData :=
  { ign := "P",
    matchList :=
      [rmatch "m_1" 0 600
        [oseg "P" (some 0) "win" "Hulk"
          [("deaths", 2), ("assists", 3), ("kdaRatio", 4),
           ("totalHeroDamage", 1000), ("totalHeroHeal", 0)]]] }

/-- Claim C1's witness segments: every overview segment carries the five
required counters; the first lacks `totalHeroHeal`. -/
def segsC1w : List Segment :=
  [oseg "P" (some 0) "win" "Hulk"
    [("kills", 5), ("deaths", 2), ("assists", 3), ("kdaRatio", 4),
     ("totalHeroDamage", 1000)],
   oseg "E" (some 1) "loss" "Thor" (fullStats 2 8 1 (3/8) 500 0)]

/-- Claim C5's counterexample input: the first overview segment matching
the reference handle has no team id, while a later overview segment in the
same match does carry one. -/
def dC5cx : InputData :=
  { ign := "P",
    matchList :=
      [rmatch "m_1" 0 600
        [oseg "P" none "win" "Hulk" (fullStats 5 2 3 4 1000 0),
         oseg "P" (some 0) "win" "Hulk" (fullStats 5 2 3 4 1000 0)]] }

/-- Claim C5's witness input: no overview segment matches the reference
handle at all. -/
def dC5w : InputData :=
  { ign := "P",
    matchList :=
      [rmatch "m_1" 0 600
        [oseg "E" (some 1) "loss" "Thor" (fullStats 2 8 1 (3/8) 500 0)]] }

/-- Claim C7's counterexample input: both of the reference player's matches
have KDA ratio 0, with different heroes. -/
def dC7cx : InputData :=
  { ign := "P",
    matchList :=
      [rmatch "m_1" 0 600
        [oseg "P" (some 0) "win" "HeroA" (fullStats 0 5 0 0 100 0)],
       rmatch "m_2" 3600 600
        [oseg "P" (some 0) "loss" "HeroB" (fullStats 0 7 0 0 200 0)]] }

/-- Claim C8's counterexample input: one tournament match whose overview
segments list the reference player's handle twice on the same team. -/
def dC8cx : InputData :=
  { ign := "Q",
    matchList :=
      [rmatch "m_1" 0 600
        [oseg "Q" (some 0) "win" "HeroA" (fullStats 3 1 2 5 300 0),
         oseg "Q" (some 0) "win" "HeroB" (fullStats 4 2 1 (5/2) 400 0)]] }

/-- Claim C8's witness input: two matches, each resolved team side listing
each handle once. -/
def dC8w : InputData :=
  { ign := "P",
    matchList :=
      [rmatch "m_1" 0 600
        [oseg "P" (some 0) "win" "HeroA" (fullStats 3 1 2 5 300 0),
         oseg "R" (some 0) "win" "HeroB" (fullStats 4 2 1 (5/2) 400 100)],
       rmatch "m_2" 60 900
        [oseg "P" (some 0) "loss" "HeroA" (fullStats 1 4 2 (3/4) 200 0)]] }

/-- Claim C6's concrete detailed match: three team-side players with kills
5, 3, 2 and assists 1, 0, 0 (plus one opponent). -/
def mdC6 : DetailedMatch :=
  { duration := 600,
    segments :=
      [pseg "A" (some 0) "win" "Hulk" (fullStats 5 3 1 2 900 0),
       pseg "B" (some 0) "win" "Thor" (fullStats 3 4 0 (3/4) 700 0),
       pseg "C" (some 0) "win" "Storm" (fullStats 2 2 0 1 500 0),
       pseg "X" (some 1) "loss" "Loki" (fullStats 9 10 0 (9/10) 1200 0)]}

/-- Claim C9's concrete detailed match: team kills 5, 3, 2 with player `A`
holding 6 assists, so `A`'s participation is (5+6)/10 × 100 = 110. -/
def mdC9 : DetailedMatch :=
  { duration := 600,
    segments :=
      [pseg "A" (some 0) "win" "Hulk" (fullStats 5 3 6 (11/3) 900 0),
       pseg "B" (some 0) "win" "Thor" (fullStats 3 4 0 (3/4) 700 0),
       pseg "C" (some 0) "win" "Storm" (fullStats 2 2 0 1 500 0)]}

/-- The five stats keys the fallback path reads by direct (fatal)
indexing. -/
def requiredFallbackKeys : List String :=
  ["kills", "deaths", "assists", "kdaRatio", "totalHeroDamage"]

/-- Small two-cluster input reused by the clustering witnesses: matches
exactly 24 hours apart stay together; a gap of 24 hours plus one second
starts a new cluster. -/
def dC4w : InputData :=
  { ign := "P",
    matchList :=
      [rmatch "n_2" 86400 600 [],
       rmatch "n_1" 0 600 [],
       rmatch "n_3" 172801 600 []] }

/-- Claim C7's witness appearances: two appearances tying at a strictly
positive KDA of 5, with different heroes. -/
def qC7a : MatchSummary × PlayerInfo :=
  (msDefault,
   { name := "W", team_id := some 0, result := "win", heroes := ["X"],
     is_mvp := false, is_svp := false, fields := [("kdaRatio", 5)] })

/-- Second appearance for claim C7's witness, same KDA, different hero. -/
def qC7b : MatchSummary × PlayerInfo :=
  (msDefault,
   { name := "W", team_id := some 0, result := "loss", heroes := ["Y"],
     is_mvp := false, is_svp := false, fields := [("kdaRatio", 5)] })

/-- The fold invariant used for claim C8: after processing a prefix of the
cluster, every map entry's performance log equals the specification-side
log over that prefix and its matches-played counter equals that log's
length, while absent names have an empty specification log. -/
def PerfInv (lookup : String → Option DetailedMatch) (ign : String)
    (pteam : Nat) (processed : List MatchSummary)
    (mp : List (String × PStats)) : Prop :=
  ∀ n : String,
    (∀ s, alookup mp n = some s →
      s.match_performances = specPerfLog lookup ign pteam processed n ∧
      s.matches_played = (specPerfLog lookup ign pteam processed n).length) ∧
    (alookup mp n = none → specPerfLog lookup ign pteam processed n = [])

/-- The per-entry bookkeeping invariant of the player-stats map used for
claim C10: wins and losses sum to matches played, and every entry has been
updated at least once. -/
def InvWL (mp : List (String × PStats)) : Prop :=
  ∀ e ∈ mp, e.2.wins + e.2.losses = e.2.matches_played ∧ 0 < e.2.matches_played

/-- Claim C10's witness input: one tournament match with two team-side
players, one of whom draws (counted as a loss). -/
def dC10w : InputData :=
  { ign := "P",
    matchList :=
      [rmatch "w_1" 0 600
        [oseg "P" (some 0) "win" "Hulk" (fullStats 6 2 1 (7/2) 800 0),
         oseg "R" (some 0) "draw" "Thor" (fullStats 2 5 3 1 600 0)]] }

/-- The run result on claim C10's witness input. -/
def resC10w : List TournamentResult :=
  match analyze_tournaments noDetail dC10w with
  | Except.ok r => r
  | Except.error _ => []

/-- The run result on claim C8's witness input. -/
def resC8w : List TournamentResult :=
  match analyze_tournaments noDetail dC8w with
  | Except.ok r => r
  | Except.error _ => []

theorem clusterGo_join (l : List MatchSummary) :
    ∀ revPrev cur, (clusterGo revPrev cur l).flatten = revPrev.reverse ++ cur :: l := by
  induction l with
  | nil => intro revPrev cur; simp [clusterGo]
  | cons m rest ih =>
      intro revPrev cur
      rw [clusterGo]
      split
      · rw [ih]; simp
      · simp only [List.flatten_cons, ih]; simp

theorem clusterGo_ne_nil (l : List MatchSummary) :
    ∀ revPrev cur c, c ∈ clusterGo revPrev cur l → c ≠ [] := by
  induction l with
  | nil =>
      intro revPrev cur c hc
      rw [clusterGo, List.mem_singleton] at hc
      subst hc; simp
  | cons m rest ih =>
      intro revPrev cur c hc
      rw [clusterGo] at hc
      split at hc
      · exact ih _ _ _ hc
      · rcases List.mem_cons.mp hc with h | h
        · subst h; simp
        · exact ih _ _ _ h

theorem clusterGo_cons (l : List MatchSummary) :
    ∀ revPrev cur, ∃ c cs, clusterGo revPrev cur l = c :: cs ∧
      c.head? = (revPrev.reverse ++ [cur]).head? := by
  induction l with
  | nil =>
      intro revPrev cur
      exact ⟨(cur :: revPrev).reverse, [], by rw [clusterGo], by simp⟩
  | cons m rest ih =>
      intro revPrev cur
      rw [clusterGo]
      split
      · obtain ⟨c, cs, he, hh⟩ := ih (cur :: revPrev) m
        refine ⟨c, cs, he, ?_⟩
        rw [hh]
        simp [List.head?_append]
      · exact ⟨(cur :: revPrev).reverse, clusterGo [] m rest, rfl, by simp⟩

theorem clusterGo_sorted (l : List MatchSummary) :
    ∀ revPrev cur, (revPrev.reverse ++ cur :: l).Pairwise tsLe →
      ∀ c ∈ clusterGo revPrev cur l, c.Pairwise tsLe := by
  induction l with
  | nil =>
      intro revPrev cur hp c hc
      rw [clusterGo, List.mem_singleton] at hc
      subst hc
      simpa using hp
  | cons m rest ih =>
      intro revPrev cur hp c hc
      rw [clusterGo] at hc
      split at hc
      · refine ih (cur :: revPrev) m ?_ c hc
        simpa [List.append_assoc] using hp
      · have hp' : ((revPrev.reverse ++ [cur]) ++ m :: rest).Pairwise tsLe := by
          simpa [List.append_assoc] using hp
        rcases List.mem_cons.mp hc with h | h
        · subst h
          simpa using (List.pairwise_append.mp hp').1
        · refine ih [] m ?_ c h
          simpa using (List.pairwise_append.mp hp').2.1

theorem clusterGo_chain (l : List MatchSummary) :
    ∀ revPrev cur, List.Chain' gapLe (revPrev.reverse ++ [cur]) →
      ∀ c ∈ clusterGo revPrev cur l, List.Chain' gapLe c := by
  induction l with
  | nil =>
      intro revPrev cur hch c hc
      rw [clusterGo, List.mem_singleton] at hc
      subst hc
      simpa using hch
  | cons m rest ih =>
      intro revPrev cur hch c hc
      rw [clusterGo] at hc
      split at hc
      · rename_i hgap
        refine ih (cur :: revPrev) m ?_ c hc
        have : List.Chain' gapLe ((revPrev.reverse ++ [cur]) ++ [m]) := by
          rw [List.chain'_append]
          refine ⟨hch, List.chain'_singleton m, ?_⟩
          intro x hx y hy
          simp at hx hy
          subst hx; subst hy
          exact hgap
        simpa [List.append_assoc] using this
      · rcases List.mem_cons.mp hc with h | h
        · subst h; simpa using hch
        · exact ih [] m (by simp) c h

theorem clusterGo_gapchain (l : List MatchSummary) :
    ∀ revPrev cur, List.Chain' clusterGapGt (clusterGo revPrev cur l) := by
  induction l with
  | nil => intro revPrev cur; rw [clusterGo]; exact List.chain'_singleton _
  | cons m rest ih =>
      intro revPrev cur
      rw [clusterGo]
      split
      · exact ih (cur :: revPrev) m
      · rename_i hgap
        obtain ⟨c, cs, he, hh⟩ := clusterGo_cons rest [] m
        rw [he, List.chain'_cons']
        refine ⟨?_, he ▸ ih [] m⟩
        intro c' hc'
        rw [List.head?_cons, Option.mem_some_iff] at hc'
        subst hc'
        intro a ha b hb
        simp at ha
        rw [hh] at hb
        simp at hb
        subst ha; subst hb
        omega

theorem clusters_flatten (d : InputData) :
    (cluster_tournament_matches d).flatten = sortedMatches d := by
  rw [cluster_tournament_matches]
  cases h : sortedMatches d with
  | nil => simp
  | cons m rest => rw [clusterGo_join]; simp

theorem sortedMatches_sorted (d : InputData) :
    (sortedMatches d).Pairwise tsLe :=
  List.sorted_insertionSort tsLe (tournamentMatches d)

theorem sortedMatches_perm (d : InputData) :
    (sortedMatches d).Perm (tournamentMatches d) :=
  List.perm_insertionSort tsLe (tournamentMatches d)

theorem clusters_ne_nil (d : InputData) :
    ∀ c ∈ cluster_tournament_matches d, c ≠ [] := by
  intro c hc
  rw [cluster_tournament_matches] at hc
  split at hc
  · simp at hc
  · exact clusterGo_ne_nil _ _ _ _ hc

theorem clusters_sorted (d : InputData) :
    ∀ c ∈ cluster_tournament_matches d, c.Pairwise tsLe := by
  intro c hc
  rw [cluster_tournament_matches] at hc
  split at hc
  · simp at hc
  · rename_i m rest heq
    refine clusterGo_sorted rest [] m ?_ c hc
    have := sortedMatches_sorted d
    rw [heq] at this
    simpa using this

theorem clusters_chain (d : InputData) :
    ∀ c ∈ cluster_tournament_matches d, List.Chain' gapLe c := by
  intro c hc
  rw [cluster_tournament_matches] at hc
  split at hc
  · simp at hc
  · exact clusterGo_chain _ [] _ (by simp) c hc

theorem clusters_gapchain (d : InputData) :
    List.Chain' clusterGapGt (cluster_tournament_matches d) := by
  rw [cluster_tournament_matches]
  split
  · exact List.chain'_nil
  · exact clusterGo_gapchain _ [] _

/-- Claim C3: for every input, the clusters produced by
`cluster_tournament_matches` partition the tournament-mode input exactly —
their concatenation is a permutation of the tournament-mode matches (every
match exactly once, no drops, no duplicates) and is globally sorted by
timestamp (so clusters appear in timestamp order), every cluster is
non-empty and internally sorted ascending by timestamp, empty input yields
empty output, and a single match yields a single one-element cluster. -/
theorem claim_c3 (d : InputData) :
    (cluster_tournament_matches d).flatten.Perm (tournamentMatches d) ∧
    (cluster_tournament_matches d).flatten.Pairwise tsLe ∧
    (∀ c ∈ cluster_tournament_matches d, c ≠ [] ∧ c.Pairwise tsLe) ∧
    (tournamentMatches d = [] → cluster_tournament_matches d = []) ∧
    (∀ m, tournamentMatches d = [m] → cluster_tournament_matches d = [[m]]) := by
  refine ⟨?_, ?_, fun c hc => ⟨clusters_ne_nil d c hc, clusters_sorted d c hc⟩, ?_, ?_⟩
  · rw [clusters_flatten]; exact sortedMatches_perm d
  · rw [clusters_flatten]; exact sortedMatches_sorted d
  · intro h
    have hs : sortedMatches d = [] := by simp [sortedMatches, h]
    simp [cluster_tournament_matches, hs]
  · intro m h
    have hs : sortedMatches d = [m] := by simp [sortedMatches, h]
    simp [cluster_tournament_matches, hs, clusterGo]

/-- Single-tournament-match input for the C3 witness. -/
def dC3w : InputData := { ign := "P", matchList := [rmatch "s_1" 0 600 []] }

/-- Witness for claim C3: on a concrete single-match input the clusterer
returns the single one-element cluster. -/
theorem claim_c3_witness :
    cluster_tournament_matches dC3w = [[toSummary (rmatch "s_1" 0 600 [])]] :=
  (claim_c3 dC3w).2.2.2.2 (toSummary (rmatch "s_1" 0 600 []))
    (by with_unfolding_all decide)

/-- Claim C4: in every clusterer output, adjacent matches inside one
cluster are at most 24 hours apart, and the gap from the last match of a
cluster to the first match of the next cluster exceeds 24 hours (so a gap
of exactly 24 hours keeps a match in the same cluster and a strictly
larger gap starts a new one). -/
theorem claim_c4 (d : InputData) :
    (∀ c ∈ cluster_tournament_matches d, List.Chain' gapLe c) ∧
    List.Chain' clusterGapGt (cluster_tournament_matches d) :=
  ⟨clusters_chain d, clusters_gapchain d⟩


/-- Witness for claim C4: on a concrete input whose second match is exactly
24 hours after the first, the first cluster keeps both (the boundary gap
stays), as established by applying the claim to that cluster. -/
theorem claim_c4_witness :
    List.Chain' gapLe
      [toSummary (rmatch "n_1" 0 600 []), toSummary (rmatch "n_2" 86400 600 [])] := by
  have hc : cluster_tournament_matches dC4w =
      [[toSummary (rmatch "n_1" 0 600 []), toSummary (rmatch "n_2" 86400 600 [])],
       [toSummary (rmatch "n_3" 172801 600 [])]] := by with_unfolding_all rfl
  refine (claim_c4 dC4w).1 _ ?_
  rw [hc]
  exact List.mem_cons_self _ _

/-- Claim C2: on the concrete three-match input (two matches one hour
apart, a third 30 hours after the second), clustering yields exactly two
tournaments of sizes 2 and 1, and aggregating the first tournament for
player `P` (win with 10/2/3 over 600 s, then loss with 4/6/1 over 900 s)
yields matches_played 2, wins 1, losses 1, win_rate 50, avg_kills 7, and
avg_kills_per_10 = (14/25)·10 = 5.6. -/
theorem claim_c2 :
    (cluster_tournament_matches dC2).map List.length = [2, 1] ∧
    (getPlayerFinal (analyze_tournaments noDetail dC2) 0 "P").map
      (fun fs => (fs.core.matches_played, fs.core.wins, fs.core.losses)) =
        some (2, 1, 1) ∧
    (getPlayerFinal (analyze_tournaments noDetail dC2) 0 "P").bind
      (fun fs => fs.avgs.map (fun a => (a.win_rate, a.avg_kills))) =
        some (50, 7) ∧
    (getPlayerFinal (analyze_tournaments noDetail dC2) 0 "P").bind
      (fun fs => fs.per10.map (fun a => a.avg_kills_per_10)) =
        some ((14 : Rat) / 25 * 10) ∧
    ((14 : Rat) / 25 * 10 = 28 / 5) := by
  refine ⟨?_, ?_, ?_, ?_, ?_⟩ <;> with_unfolding_all decide

theorem requireStat_ok {s : Segment} {k : String} {v : Rat}
    (hv : alookup s.stats k = some v) : requireStat s k = Except.ok v := by
  unfold requireStat
  rw [hv]

theorem requireStat_error {s : Segment} {k : String} {e : AErr}
    (h : requireStat s k = Except.error e) : e = AErr.missingStat k := by
  unfold requireStat at h
  split at h
  · cases h
  · cases h; rfl

theorem fallbackInfo_ok {s : Segment} {k d a r dm : Rat}
    (h1 : alookup s.stats "kills" = some k)
    (h2 : alookup s.stats "deaths" = some d)
    (h3 : alookup s.stats "assists" = some a)
    (h4 : alookup s.stats "kdaRatio" = some r)
    (h5 : alookup s.stats "totalHeroDamage" = some dm) :
    fallbackInfo s = Except.ok
      { name := s.handle, team_id := s.teamId, result := s.result,
        heroes := if s.heroes.isEmpty then ["Unknown"] else s.heroes,
        is_mvp := false, is_svp := false,
        fields := [("kills", k), ("deaths", d), ("assists", a),
                   ("kdaRatio", r), ("totalHeroDamage", dm),
                   ("totalHeroHeal", (alookup s.stats "totalHeroHeal").getD 0)] } := by
  unfold fallbackInfo
  rw [requireStat_ok h1, requireStat_ok h2, requireStat_ok h3,
      requireStat_ok h4, requireStat_ok h5]

theorem fallbackInfo_isOk {s : Segment}
    (hk : ∀ k ∈ requiredFallbackKeys, (alookup s.stats k).isSome) :
    ∃ info, fallbackInfo s = Except.ok info ∧ info.team_id = s.teamId := by
  obtain ⟨k1, h1⟩ := Option.isSome_iff_exists.mp (hk "kills" (by simp [requiredFallbackKeys]))
  obtain ⟨k2, h2⟩ := Option.isSome_iff_exists.mp (hk "deaths" (by simp [requiredFallbackKeys]))
  obtain ⟨k3, h3⟩ := Option.isSome_iff_exists.mp (hk "assists" (by simp [requiredFallbackKeys]))
  obtain ⟨k4, h4⟩ := Option.isSome_iff_exists.mp (hk "kdaRatio" (by simp [requiredFallbackKeys]))
  obtain ⟨k5, h5⟩ := Option.isSome_iff_exists.mp (hk "totalHeroDamage" (by simp [requiredFallbackKeys]))
  exact ⟨_, fallbackInfo_ok h1 h2 h3 h4 h5, rfl⟩

theorem fallbackInfo_heal {s : Segment} {info : PlayerInfo}
    (h : fallbackInfo s = Except.ok info) :
    getF info "totalHeroHeal" = (alookup s.stats "totalHeroHeal").getD 0 := by
  unfold fallbackInfo at h
  repeat' split at h
  all_goals cases h
  all_goals simp [getF, alookup]

theorem fallbackSplit_ok (pteam : Nat) :
    ∀ segs : List Segment,
      (∀ s ∈ segs, s.segType = "overview" →
        ∀ k ∈ requiredFallbackKeys, (alookup s.stats k).isSome) →
      ∃ te op, fallbackSplit pteam segs = Except.ok (te, op) ∧
        (∀ p ∈ te, p.team_id = some pteam) ∧
        (∀ p ∈ op, p.team_id ≠ some pteam) := by
  intro segs
  induction segs with
  | nil => exact fun _ => ⟨[], [], rfl, by simp, by simp⟩
  | cons seg rest ih =>
      intro hk
      obtain ⟨te, op, hok, hte, hop⟩ := ih (fun s hs => hk s (List.mem_cons_of_mem _ hs))
      by_cases hov : seg.segType = "overview"
      · obtain ⟨info, hinfo, hteam⟩ :=
          fallbackInfo_isOk (hk seg (List.mem_cons_self _ _) hov)
        by_cases hteq : info.team_id = some pteam
        · refine ⟨info :: te, op, ?_, ?_, hop⟩
          · simp only [fallbackSplit, if_pos hov, hinfo, hok, if_pos hteq]
          · intro p hp
            rcases List.mem_cons.mp hp with h | h
            · subst h; exact hteq
            · exact hte p h
        · refine ⟨te, info :: op, ?_, hte, ?_⟩
          · simp only [fallbackSplit, if_pos hov, hinfo, hok, if_neg hteq]
          · intro p hp
            rcases List.mem_cons.mp hp with h | h
            · subst h; exact hteq
            · exact hop p h
      · exact ⟨te, op, by simp only [fallbackSplit, if_neg hov]; exact hok, hte, hop⟩

/-- Counterexample to claim C1: on the concrete input `dC1cx`, whose single
overview segment lacks the `kills` key, fallback extraction raises a fatal
`KeyError` (embedded as `missingStat "kills"`) and the whole run aborts —
the missing counter is not treated as 0 and no team/opponent split is
produced. -/
theorem claim_c1_counterexample :
    analyze_tournaments noDetail dC1cx = Except.error (AErr.missingStat "kills") := by
  with_unfolding_all rfl

/-- Claim C1 (amended): on the fallback path only `totalHeroHeal` is read
with a default of 0 when absent; the five counters kills, deaths, assists,
kdaRatio and totalHeroDamage are required — a missing one raises a fatal
`KeyError` — and whenever every overview segment carries those five keys,
fallback extraction succeeds and produces a valid team/opponent split
(team side exactly the records whose team id equals the reference team). -/
theorem claim_c1_amended (pteam : Nat) (segs : List Segment)
    (hk : ∀ s ∈ segs, s.segType = "overview" →
      ∀ k ∈ requiredFallbackKeys, (alookup s.stats k).isSome) :
    (∃ te op, fallbackSplit pteam segs = Except.ok (te, op) ∧
      (∀ p ∈ te, p.team_id = some pteam) ∧
      (∀ p ∈ op, p.team_id ≠ some pteam)) ∧
    (∀ s info, fallbackInfo s = Except.ok info →
      getF info "totalHeroHeal" = (alookup s.stats "totalHeroHeal").getD 0) :=
  ⟨fallbackSplit_ok pteam segs hk, fun _ _ h => fallbackInfo_heal h⟩

/-- Witness for claim C1 (amended), at the concrete segment list
`segsC1w`: both overview segments carry the five required counters, so the
split succeeds. -/
theorem claim_c1_witness :
    ∃ te op, fallbackSplit 0 segsC1w = Except.ok (te, op) ∧
      (∀ p ∈ te, p.team_id = some 0) ∧
      (∀ p ∈ op, p.team_id ≠ some 0) :=
  (claim_c1_amended 0 segsC1w (by with_unfolding_all decide)).1

theorem fallbackInfo_error {s : Segment} {e : AErr}
    (h : fallbackInfo s = Except.error e) : ∃ k, e = AErr.missingStat k := by
  unfold fallbackInfo at h
  repeat' split at h
  all_goals cases h
  all_goals exact ⟨_, requireStat_error (by assumption)⟩

theorem fallbackSplit_error {pteam : Nat} :
    ∀ {segs : List Segment} {e : AErr},
      fallbackSplit pteam segs = Except.error e → ∃ k, e = AErr.missingStat k := by
  intro segs
  induction segs with
  | nil => intro e h; cases h
  | cons seg rest ih =>
      intro e h
      rw [fallbackSplit] at h
      split at h
      · split at h
        · cases h; exact fallbackInfo_error (by assumption)
        · split at h
          · cases h; exact ih (by assumption)
          · split at h <;> cases h
      · exact ih h

theorem resolveMatch_error {lookup : String → Option DetailedMatch}
    {ign : String} {pteam : Nat} {m : MatchSummary} {e : AErr}
    (h : resolveMatch lookup ign pteam m = Except.error e) :
    ∃ k, e = AErr.missingStat k := by
  unfold resolveMatch at h
  split at h
  · cases h
  · exact fallbackSplit_error h

theorem foldMatches_error {lookup : String → Option DetailedMatch}
    {ign : String} {pteam : Nat} :
    ∀ {cluster : List MatchSummary} {ti : TournamentInfo} {e : AErr},
      foldMatches lookup ign pteam ti cluster = Except.error e →
      ∃ k, e = AErr.missingStat k := by
  intro cluster
  induction cluster with
  | nil => intro ti e h; cases h
  | cons m rest ih =>
      intro ti e h
      rw [foldMatches] at h
      split at h
      · cases h; exact resolveMatch_error (by assumption)
      · exact ih h

theorem processTournament_error {lookup : String → Option DetailedMatch}
    {ign : String} {pteam idx : Nat} {cluster : List MatchSummary} {e : AErr}
    (h : processTournament lookup ign pteam idx cluster = Except.error e) :
    ∃ k, e = AErr.missingStat k := by
  unfold processTournament at h
  dsimp only at h
  split at h
  · cases h; exact foldMatches_error (by assumption)
  · cases h

theorem analyzeClusters_error {lookup : String → Option DetailedMatch}
    {ign : String} {pteam : Nat} :
    ∀ {clusters : List (List MatchSummary)} {idx : Nat} {e : AErr},
      analyzeClusters lookup ign pteam idx clusters = Except.error e →
      ∃ k, e = AErr.missingStat k := by
  intro clusters
  induction clusters with
  | nil => intro idx e h; cases h
  | cons c rest ih =>
      intro idx e h
      rw [analyzeClusters] at h
      split at h
      · cases h; exact processTournament_error (by assumption)
      · split at h
        · cases h; exact ih (by assumption)
        · cases h

theorem findPlayerTeam_none_of_no_team (d : InputData)
    (h : ∀ m ∈ d.matchList, ∀ s ∈ m.segments,
      ¬(s.segType = "overview" ∧ s.handle = d.ign ∧ s.teamId.isSome)) :
    findPlayerTeam d = none := by
  unfold findPlayerTeam
  rw [List.findSome?_eq_none_iff]
  intro m hm
  unfold teamFromMatch
  cases hf : m.segments.find? (fun s => s.segType == "overview" && s.handle == d.ign) with
  | none => rfl
  | some s =>
      have hs := List.find?_some hf
      have hmem := List.mem_of_find?_eq_some hf
      simp only [Bool.and_eq_true, beq_iff_eq] at hs
      have := h m hm s hmem
      cases hts : s.teamId with
      | none => simp [hts]
      | some t => exact absurd ⟨hs.1, hs.2, by simp [hts]⟩ this

/-- Counterexample to claim C5: on the concrete input `dC5cx` the run is
aborted with the fatal team-identification error although the reference
player's team id is determined by an overview segment (the second one of
the match); the scan only consults the first overview segment matching the
reference handle in each match, and that one lacks a team id. -/
theorem claim_c5_counterexample :
    analyze_tournaments noDetail dC5cx = Except.error AErr.teamNotFound ∧
    (∃ m ∈ dC5cx.matchList, ∃ s ∈ m.segments,
      s.segType = "overview" ∧ s.handle = dC5cx.ign ∧ s.teamId = some 0) := by
  constructor
  · with_unfolding_all rfl
  · refine ⟨_, List.mem_cons_self _ _, oseg "P" (some 0) "win" "Hulk" (fullStats 5 2 3 4 1000 0), ?_, ?_⟩
    · with_unfolding_all decide
    · exact ⟨rfl, rfl, rfl⟩

/-- Claim C5 (amended): the engine aborts the whole run with the fatal
team-identification error exactly when the per-match scan — which consults
only the first overview segment matching the reference handle in each
match — yields no team id; in particular it aborts whenever no overview
segment at all determines one (the fatal check precedes all clustering and
aggregation, so no aggregate output is produced), and when the scan does
find a team id this check never aborts the run. -/
theorem claim_c5_amended (lookup : String → Option DetailedMatch) (d : InputData) :
    (findPlayerTeam d = none →
      analyze_tournaments lookup d = Except.error AErr.teamNotFound) ∧
    ((∀ m ∈ d.matchList, ∀ s ∈ m.segments,
        ¬(s.segType = "overview" ∧ s.handle = d.ign ∧ s.teamId.isSome)) →
      analyze_tournaments lookup d = Except.error AErr.teamNotFound) ∧
    (∀ pt, findPlayerTeam d = some pt →
      analyze_tournaments lookup d ≠ Except.error AErr.teamNotFound) := by
  refine ⟨?_, ?_, ?_⟩
  · intro h
    unfold analyze_tournaments
    rw [h]
  · intro h
    unfold analyze_tournaments
    rw [findPlayerTeam_none_of_no_team d h]
  · intro pt hpt hcon
    unfold analyze_tournaments at hcon
    rw [hpt] at hcon
    obtain ⟨k, hk⟩ := analyzeClusters_error hcon
    cases hk

/-- Witness for claim C5 (amended): on the concrete input `dC5w`, whose
only overview segment belongs to another player, the run aborts with the
fatal team error before any aggregation. -/
theorem claim_c5_witness :
    analyze_tournaments noDetail dC5w = Except.error AErr.teamNotFound :=
  (claim_c5_amended noDetail dC5w).1 (by with_unfolding_all rfl)

theorem alookup_append {α : Type} (l₁ l₂ : List (String × α)) (k : String) :
    alookup (l₁ ++ l₂) k =
      match alookup l₁ k with
      | some v => some v
      | none => alookup l₂ k := by
  induction l₁ with
  | nil => simp [alookup]
  | cons e rest ih =>
      obtain ⟨ek, ev⟩ := e
      by_cases h : ek = k
      · simp [alookup, h]
      · simp [alookup, h, ih]

theorem alookup_not_mem {α : Type} {l : List (String × α)} {k : String}
    (h : ∀ e ∈ l, e.1 ≠ k) : alookup l k = none := by
  induction l with
  | nil => rfl
  | cons e rest ih =>
      obtain ⟨ek, ev⟩ := e
      rw [alookup, if_neg (h (ek, ev) (List.mem_cons_self _ _))]
      exact ih (fun e he => h e (List.mem_cons_of_mem _ he))

theorem alookup_map_set {fs : List (String × Rat)} {key : String} (v : Rat)
    (h : (alookup fs key).isSome) :
    alookup (fs.map (fun e => if e.1 = key then (e.1, v) else e)) key = some v := by
  induction fs with
  | nil => simp [alookup] at h
  | cons e rest ih =>
      obtain ⟨ek, ev⟩ := e
      simp only [List.map_cons]
      by_cases hk : ek = key
      · subst hk
        rw [if_pos rfl, alookup, if_pos rfl]
      · rw [alookup, if_neg hk] at h
        rw [if_neg hk, alookup, if_neg hk]
        exact ih h

theorem alookup_map_set_other {fs : List (String × Rat)} {key k : String} (v : Rat)
    (hk : k ≠ key) :
    alookup (fs.map (fun e => if e.1 = key then (e.1, v) else e)) k = alookup fs k := by
  induction fs with
  | nil => rfl
  | cons e rest ih =>
      obtain ⟨ek, ev⟩ := e
      simp only [List.map_cons]
      by_cases hek : ek = key
      · subst hek
        rw [if_pos rfl, alookup, if_neg (fun h => hk h.symm),
            alookup, if_neg (fun h => hk h.symm)]
        exact ih
      · rw [if_neg hek, alookup, alookup]
        by_cases hekk : ek = k
        · rw [if_pos hekk, if_pos hekk]
        · rw [if_neg hekk, if_neg hekk]
          exact ih

theorem alookup_setF_same (fs : List (String × Rat)) (key : String) (v : Rat) :
    alookup (setF fs key v) key = some v := by
  unfold setF
  split
  · exact alookup_map_set v (by assumption)
  · rename_i h
    rw [alookup_append]
    rw [Option.not_isSome_iff_eq_none.mp h]
    simp [alookup]

theorem alookup_setF_other (fs : List (String × Rat)) (key k : String) (v : Rat)
    (hk : k ≠ key) : alookup (setF fs key v) k = alookup fs k := by
  unfold setF
  split
  · exact alookup_map_set_other v hk
  · rw [alookup_append]
    split
    · rename_i v' heq
      exact heq.symm
    · rename_i heq
      rw [alookup, if_neg (fun h => hk h.symm)]
      exact heq.symm

theorem getF_set_kp_same (p : PlayerInfo) (v : Rat) :
    getF { p with fields := setF p.fields "kill_participation" v }
      "kill_participation" = v := by
  simp [getF, alookup_setF_same]

theorem getF_set_kp_other (p : PlayerInfo) (v : Rat) (k : String)
    (hk : k ≠ "kill_participation") :
    getF { p with fields := setF p.fields "kill_participation" v } k = getF p k := by
  simp [getF, alookup_setF_other _ _ _ _ hk]

theorem backfillKP_eq_map {g : List PlayerInfo} (h : sumKills g ≠ 0) :
    backfillKP g = g.map (fun p =>
      { p with
        fields :=
          setF p.fields "kill_participation"
            ((getF p "kills" + getF p "assists") / sumKills g * 100) }) := by
  unfold backfillKP
  rw [if_pos h]

theorem backfillKP_eq_self {g : List PlayerInfo} (h : sumKills g = 0) :
    backfillKP g = g := by
  unfold backfillKP
  rw [if_neg (by simp [h])]

theorem sumKills_backfillKP (g : List PlayerInfo) :
    sumKills (backfillKP g) = sumKills g := by
  by_cases h : sumKills g = 0
  · rw [backfillKP_eq_self h]
  · rw [backfillKP_eq_map h]
    unfold sumKills
    rw [List.map_map]
    refine congrArg List.sum (List.map_congr_left fun p _ => ?_)
    exact getF_set_kp_other p _ "kills" (by decide)

theorem sumAssists_backfillKP (g : List PlayerInfo) :
    sumAssists (backfillKP g) = sumAssists g := by
  by_cases h : sumKills g = 0
  · rw [backfillKP_eq_self h]
  · rw [backfillKP_eq_map h]
    unfold sumAssists
    rw [List.map_map]
    refine congrArg List.sum (List.map_congr_left fun p _ => ?_)
    exact getF_set_kp_other p _ "assists" (by decide)

theorem backfillKP_kp_of_ne {g : List PlayerInfo} (h : sumKills g ≠ 0) :
    ∀ p ∈ backfillKP g, getF p "kill_participation" =
      (getF p "kills" + getF p "assists") / sumKills (backfillKP g) * 100 := by
  rw [sumKills_backfillKP]
  rw [backfillKP_eq_map h]
  intro p hp
  obtain ⟨q, _, rfl⟩ := List.mem_map.mp hp
  rw [getF_set_kp_same, getF_set_kp_other _ _ _ (by decide),
      getF_set_kp_other _ _ _ (by decide)]

theorem copyStats_keys {bag : List (String × Rat)} :
    ∀ e ∈ copyStats bag, e.1 ∈ statKeys := by
  intro e he
  unfold copyStats at he
  obtain ⟨k, hk, heq⟩ := List.mem_filterMap.mp he
  cases hv : alookup bag k with
  | none => rw [hv] at heq; cases heq
  | some v => rw [hv] at heq; cases heq; exact hk

theorem buildPlayerInfo_kp (dur : Int) (seg : Segment) :
    getF (buildPlayerInfo dur seg) "kill_participation" = 0 := by
  unfold buildPlayerInfo
  dsimp only [getF]
  have hbase : alookup (copyStats seg.stats) "kill_participation" = none :=
    alookup_not_mem (fun e he hk => absurd (hk ▸ copyStats_keys e he) (by decide))
  have hp10 : alookup (per10Fields (copyStats seg.stats) dur)
      "kill_participation" = none := by
    unfold per10Fields
    split
    · simp [alookup]
    · rfl
  have hleft : alookup
      (copyStats seg.stats ++ per10Fields (copyStats seg.stats) dur)
      "kill_participation" = none := by
    rw [alookup_append, hbase, hp10]
  rw [alookup_append, hleft]
  simp [alookup]

theorem extract_group_pre {md : DetailedMatch} {ign : String} (g : List PlayerInfo)
    (hg : g = (extract_player_stats md ign).1 ∨ g = (extract_player_stats md ign).2) :
    ∃ g₀, g = backfillKP g₀ ∧ ∀ p ∈ g₀, getF p "kill_participation" = 0 := by
  have key : ∀ pred : PlayerInfo → Bool,
      ∀ p ∈ ((md.segments.filter (fun s => s.segType == "player")).map
        (buildPlayerInfo md.duration)).filter pred,
        getF p "kill_participation" = 0 := by
    intro pred p hp
    obtain ⟨s, _, rfl⟩ := List.mem_map.mp (List.mem_of_mem_filter hp)
    exact buildPlayerInfo_kp md.duration s
  rcases hg with rfl | rfl
  · exact ⟨_, rfl, key _⟩
  · exact ⟨_, rfl, key _⟩

theorem group_kp_spec (g₀ : List PlayerInfo)
    (h0 : ∀ p ∈ g₀, getF p "kill_participation" = 0) :
    (sumKills (backfillKP g₀) > 0 → ∀ p ∈ backfillKP g₀,
      getF p "kill_participation" =
        100 * (getF p "kills" + getF p "assists") / sumKills (backfillKP g₀)) ∧
    (sumKills (backfillKP g₀) = 0 → ∀ p ∈ backfillKP g₀,
      getF p "kill_participation" = 0) := by
  constructor
  · intro hK p hp
    have hK0 : sumKills g₀ ≠ 0 := by
      rw [sumKills_backfillKP] at hK
      exact ne_of_gt hK
    rw [backfillKP_kp_of_ne hK0 p hp, div_mul_eq_mul_div,
        mul_comm (getF p "kills" + getF p "assists") 100]
  · intro hK p hp
    have hK0 : sumKills g₀ = 0 := by rw [sumKills_backfillKP] at hK; exact hK
    rw [backfillKP_eq_self hK0] at hp
    exact h0 p hp

/-- Claim C6: in the extractor's output, within each of the two groups
independently, when the group's kill sum is positive every member's
kill_participation is 100 · (kills + assists) / group kill sum, and when
the kill sum is 0 every member's kill_participation stays 0; concretely, a
team of three with kills 5, 3, 2 and assists 1, 0, 0 gets participation
60, 30, 20. -/
theorem claim_c6 :
    (∀ (md : DetailedMatch) (ign : String) (g : List PlayerInfo),
      (g = (extract_player_stats md ign).1 ∨ g = (extract_player_stats md ign).2) →
      (sumKills g > 0 → ∀ p ∈ g, getF p "kill_participation" =
        100 * (getF p "kills" + getF p "assists") / sumKills g) ∧
      (sumKills g = 0 → ∀ p ∈ g, getF p "kill_participation" = 0)) ∧
    ((extract_player_stats mdC6 "A").1.map (fun p => getF p "kill_participation") =
      [60, 30, 20]) := by
  constructor
  · intro md ign g hg
    obtain ⟨g₀, rfl, h0⟩ := extract_group_pre g hg
    exact group_kp_spec g₀ h0
  · with_unfolding_all decide

/-- Witness for claim C6: on the concrete detailed match `mdC6` the team
group has kill sum 10 > 0, so the participation column equals the formula
column pointwise. -/
theorem claim_c6_witness :
    (extract_player_stats mdC6 "A").1.map (fun p => getF p "kill_participation") =
      (extract_player_stats mdC6 "A").1.map (fun p =>
        100 * (getF p "kills" + getF p "assists") /
          sumKills (extract_player_stats mdC6 "A").1) :=
  List.map_congr_left (fun p hp =>
    (claim_c6.1 mdC6 "A" _ (Or.inl rfl)).1 (by with_unfolding_all decide) p hp)

theorem sum_map_div_mul (l : List PlayerInfo) (f : PlayerInfo → Rat) (K c : Rat) :
    (l.map (fun p => f p / K * c)).sum = (l.map f).sum / K * c := by
  induction l with
  | nil => simp
  | cons p rest ih =>
      simp only [List.map_cons, List.sum_cons, ih]
      ring

theorem sum_map_add_fn (l : List PlayerInfo) (f g : PlayerInfo → Rat) :
    (l.map (fun p => f p + g p)).sum = (l.map f).sum + (l.map g).sum := by
  induction l with
  | nil => simp
  | cons p rest ih =>
      simp only [List.map_cons, List.sum_cons, ih]
      ring

theorem group_kp_sum (g₀ : List PlayerInfo) (h : sumKills g₀ ≠ 0) :
    ((backfillKP g₀).map (fun p => getF p "kill_participation")).sum =
      100 * (sumKills (backfillKP g₀) + sumAssists (backfillKP g₀)) /
        sumKills (backfillKP g₀) := by
  rw [sumKills_backfillKP, sumAssists_backfillKP]
  rw [backfillKP_eq_map h, List.map_map]
  have hfn : ((fun p => getF p "kill_participation") ∘ fun p =>
      ({ p with
        fields :=
          setF p.fields "kill_participation"
            ((getF p "kills" + getF p "assists") / sumKills g₀ * 100) } : PlayerInfo)) =
      fun p => (getF p "kills" + getF p "assists") / sumKills g₀ * 100 :=
    funext fun p => getF_set_kp_same p _
  rw [hfn, sum_map_div_mul g₀ (fun p => getF p "kills" + getF p "assists") (sumKills g₀) 100,
      sum_map_add_fn g₀ (fun p => getF p "kills") (fun p => getF p "assists")]
  show (sumKills g₀ + sumAssists g₀) / sumKills g₀ * 100 = _
  rw [div_mul_eq_mul_div, mul_comm]

/-- Claim C9: kill_participation is not bounded above by 100 — in each
extractor output group with positive kill sum K and assist sum A, the
members' kill_participation values sum to 100 · (K + A) / K, which exceeds
100 whenever A > 0; concretely, a player with kills 5 and assists 6 in a
group with kill sum 10 gets participation 110. -/
theorem claim_c9 :
    (∀ (md : DetailedMatch) (ign : String) (g : List PlayerInfo),
      (g = (extract_player_stats md ign).1 ∨ g = (extract_player_stats md ign).2) →
      sumKills g > 0 →
      ((g.map (fun p => getF p "kill_participation")).sum =
        100 * (sumKills g + sumAssists g) / sumKills g) ∧
      (sumAssists g > 0 →
        (g.map (fun p => getF p "kill_participation")).sum > 100)) ∧
    (∃ p ∈ (extract_player_stats mdC9 "A").1,
      getF p "kill_participation" = 110) := by
  constructor
  · intro md ign g hg hK
    obtain ⟨g₀, rfl, _⟩ := extract_group_pre g hg
    have hK0 : sumKills g₀ ≠ 0 := by
      rw [sumKills_backfillKP] at hK
      exact ne_of_gt hK
    have hsum := group_kp_sum g₀ hK0
    refine ⟨hsum, fun hA => ?_⟩
    rw [hsum, gt_iff_lt, lt_div_iff₀ hK]
    nlinarith [hK, hA]
  · with_unfolding_all decide

/-- Witness for claim C9: on the concrete detailed match `mdC9` the team
group's participation values sum to more than 100. -/
theorem claim_c9_witness :
    ((extract_player_stats mdC9 "A").1.map
      (fun p => getF p "kill_participation")).sum > 100 :=
  ((claim_c9.1 mdC9 "A" _ (Or.inl rfl)) (by with_unfolding_all decide)).2
    (by with_unfolding_all decide)

theorem le_foldl_max (xs : List Rat) : ∀ b : Rat, b ≤ xs.foldl max b := by
  induction xs with
  | nil => intro b; exact le_refl b
  | cons x rest ih => intro b; exact le_trans (le_max_left b x) (ih (max b x))

theorem mem_le_foldl_max (xs : List Rat) : ∀ (b : Rat), ∀ x ∈ xs, x ≤ xs.foldl max b := by
  induction xs with
  | nil => simp
  | cons y rest ih =>
      intro b x hx
      rcases List.mem_cons.mp hx with rfl | hx
      · exact le_trans (le_max_right b x) (le_foldl_max rest (max b x))
      · exact ih (max b y) x hx

theorem foldl_max_mem (xs : List Rat) : ∀ b : Rat, xs.foldl max b = b ∨ xs.foldl max b ∈ xs := by
  induction xs with
  | nil => intro b; exact Or.inl rfl
  | cons y rest ih =>
      intro b
      rcases ih (max b y) with h | h
      · rcases le_total y b with hyb | hby
        · left; rw [List.foldl_cons, h, max_eq_left hyb]
        · right; rw [List.foldl_cons, h, max_eq_right hby]
          exact List.mem_cons_self _ _
      · right; exact List.mem_cons_of_mem _ h

theorem foldUpd_append (l : List (MatchSummary × PlayerInfo))
    (q : MatchSummary × PlayerInfo) :
    foldUpd (l ++ [q]) = updatePlayer q.1 q.2 (foldUpd l) := by
  unfold foldUpd
  rw [List.foldl_append]
  rfl

theorem maxKda_append (l : List (MatchSummary × PlayerInfo))
    (q : MatchSummary × PlayerInfo) :
    maxKda (l ++ [q]) = max (maxKda l) (kdaOf q) := by
  unfold maxKda
  rw [List.map_append, List.foldl_append]
  rfl

theorem maxKda_nonneg (l : List (MatchSummary × PlayerInfo)) : 0 ≤ maxKda l :=
  le_foldl_max _ 0

theorem mem_le_maxKda (l : List (MatchSummary × PlayerInfo)) :
    ∀ q ∈ l, kdaOf q ≤ maxKda l := by
  intro q hq
  exact mem_le_foldl_max _ 0 (kdaOf q) (List.mem_map_of_mem kdaOf hq)

theorem maxKda_attained {l : List (MatchSummary × PlayerInfo)}
    (h : 0 < maxKda l) : ∃ q ∈ l, kdaOf q = maxKda l := by
  rcases foldl_max_mem (l.map kdaOf) 0 with h0 | hmem
  · exfalso
    unfold maxKda at h
    rw [h0] at h
    exact lt_irrefl 0 h
  · obtain ⟨q, hq, hkq⟩ := List.mem_map.mp hmem
    exact ⟨q, hq, hkq⟩

theorem updatePlayer_best (m : MatchSummary) (p : PlayerInfo) (s : PStats) :
    (updatePlayer m p s).best_kda = max s.best_kda (getF p "kdaRatio") ∧
    (updatePlayer m p s).best_hero =
      (if getF p "kdaRatio" > s.best_kda then some (heroOf p) else s.best_hero) := by
  constructor
  · show (if getF p "kdaRatio" > s.best_kda then getF p "kdaRatio" else s.best_kda) = _
    rcases lt_or_ge s.best_kda (getF p "kdaRatio") with hlt | hge
    · rw [if_pos hlt, max_eq_right (le_of_lt hlt)]
    · rw [if_neg (not_lt_of_ge hge), max_eq_left hge]
  · rfl

theorem foldUpd_best (l : List (MatchSummary × PlayerInfo)) :
    (foldUpd l).best_kda = maxKda l ∧
    (foldUpd l).best_hero =
      (if 0 < maxKda l then firstHeroAt l (maxKda l) else none) := by
  induction l using List.reverseRecOn with
  | nil =>
      have hm : maxKda ([] : List (MatchSummary × PlayerInfo)) = 0 := rfl
      constructor
      · exact hm.symm
      · rw [hm, if_neg (lt_irrefl 0)]
        rfl
  | append_singleton l q ih =>
      obtain ⟨hb, hh⟩ := ih
      rw [foldUpd_append, maxKda_append]
      obtain ⟨hub, huh⟩ := updatePlayer_best q.1 q.2 (foldUpd l)
      have hk : getF q.2 "kdaRatio" = kdaOf q := rfl
      rw [hk] at hub huh
      rw [hub, huh, hb, hh]
      rcases lt_or_ge (maxKda l) (kdaOf q) with hlt | hge
      · have hpos : 0 < kdaOf q := lt_of_le_of_lt (maxKda_nonneg l) hlt
        have hmax : max (maxKda l) (kdaOf q) = kdaOf q := max_eq_right (le_of_lt hlt)
        refine ⟨rfl, ?_⟩
        rw [if_pos hlt, hmax, if_pos hpos]
        have hnone : l.find? (fun q' => kdaOf q' == kdaOf q) = none := by
          rw [List.find?_eq_none]
          intro x hx hbe
          rw [beq_iff_eq] at hbe
          have hle := mem_le_maxKda l x hx
          rw [hbe] at hle
          exact absurd hle (not_le_of_lt hlt)
        simp [firstHeroAt, List.find?_append, hnone, List.find?]
      · have hmax : max (maxKda l) (kdaOf q) = maxKda l := max_eq_left hge
        refine ⟨rfl, ?_⟩
        rw [if_neg (not_lt_of_ge hge), hmax]
        by_cases hpos : 0 < maxKda l
        · rw [if_pos hpos, if_pos hpos]
          obtain ⟨q₀, hq₀, hkq₀⟩ := maxKda_attained hpos
          have hsome : (l.find? (fun q' => kdaOf q' == maxKda l)).isSome := by
            rw [List.find?_isSome]
            exact ⟨q₀, hq₀, by rw [beq_iff_eq]; exact hkq₀⟩
          obtain ⟨q₁, hq₁⟩ := Option.isSome_iff_exists.mp hsome
          unfold firstHeroAt
          rw [List.find?_append, hq₁]
          rfl
        · rw [if_neg hpos, if_neg hpos]

/-- Counterexample to claim C7: on the concrete input `dC7cx` the reference
player's two matches tie on the best KDA — both per-match KDA ratios equal
the final best_kda of 0 — yet the recorded best_hero is `none`, not the
hero `HeroA` of the first-processed match with that KDA. -/
theorem claim_c7_counterexample :
    (getPlayerFinal (analyze_tournaments noDetail dC7cx) 0 "P").map
      (fun fs => (fs.core.best_kda, fs.core.best_hero,
        fs.core.match_performances.map (fun q => q.kda),
        fs.core.match_performances.map (fun q => q.hero))) =
      some (0, none, [0, 0], ["HeroA", "HeroB"]) := by
  with_unfolding_all decide

/-- Claim C7 (amended): best_kda is updated only on a strictly greater
per-match KDA ratio (so it is non-decreasing over the fold and equals the
maximum of 0 and all per-match KDA ratios processed so far), and best_hero
is the hero of the first-processed match attaining that maximum provided
the maximum is strictly positive; when no processed match has a strictly
positive KDA ratio, best_hero remains unset (`none`) even if several
matches tie on the best KDA of 0. -/
theorem claim_c7 :
    (∀ (m : MatchSummary) (p : PlayerInfo) (s : PStats),
      (updatePlayer m p s).best_kda = max s.best_kda (getF p "kdaRatio") ∧
      s.best_kda ≤ (updatePlayer m p s).best_kda ∧
      (getF p "kdaRatio" ≤ s.best_kda →
        (updatePlayer m p s).best_kda = s.best_kda ∧
        (updatePlayer m p s).best_hero = s.best_hero)) ∧
    (∀ l : List (MatchSummary × PlayerInfo),
      (foldUpd l).best_kda = maxKda l ∧
      (foldUpd l).best_hero =
        (if 0 < maxKda l then firstHeroAt l (maxKda l) else none)) := by
  constructor
  · intro m p s
    obtain ⟨hub, huh⟩ := updatePlayer_best m p s
    refine ⟨hub, by rw [hub]; exact le_max_left _ _, fun hle => ?_⟩
    constructor
    · rw [hub, max_eq_left hle]
    · rw [huh, if_neg (not_lt_of_ge hle)]
  · exact foldUpd_best

/-- Witness for claim C7 (amended): two appearances tying at the strictly
positive KDA 5 with heroes `X` then `Y` leave best_kda 5 and best_hero the
first-seen `X`. -/
theorem claim_c7_witness :
    (foldUpd [qC7a, qC7b]).best_kda = 5 ∧
    (foldUpd [qC7a, qC7b]).best_hero = some "X" := by
  obtain ⟨h1, h2⟩ := claim_c7.2 [qC7a, qC7b]
  constructor
  · rw [h1]
    with_unfolding_all decide
  · rw [h2]
    with_unfolding_all decide

theorem updatePlayer_wl (m : MatchSummary) (p : PlayerInfo) (s : PStats) :
    (updatePlayer m p s).wins + (updatePlayer m p s).losses =
      s.wins + s.losses + 1 ∧
    (updatePlayer m p s).matches_played = s.matches_played + 1 := by
  constructor
  · show (if p.result = "win" then s.wins + 1 else s.wins) +
        (if p.result = "win" then s.losses else s.losses + 1) = _
    split <;> omega
  · rfl

theorem updInMap_inv {mp : List (String × PStats)} {name : String}
    {f : PStats → PStats}
    (hf : ∀ s : PStats, s.wins + s.losses = s.matches_played →
      ((f s).wins + (f s).losses = (f s).matches_played ∧
        s.matches_played < (f s).matches_played))
    (hmp : InvWL mp) : InvWL (updInMap mp name f) := by
  unfold updInMap
  split
  · intro e' he'
    obtain ⟨e, he, rfl⟩ := List.mem_map.mp he'
    by_cases hk : e.1 = name
    · rw [if_pos hk]
      obtain ⟨hsum, hpos⟩ := hmp e he
      obtain ⟨hsum', hlt⟩ := hf e.2 hsum
      exact ⟨hsum', lt_trans hpos hlt⟩
    · rw [if_neg hk]
      exact hmp e he
  · intro e' he'
    rcases List.mem_append.mp he' with h | h
    · exact hmp e' h
    · rw [List.mem_singleton] at h
      subst h
      obtain ⟨hsum', hlt⟩ := hf initPStats rfl
      exact ⟨hsum', hlt⟩

theorem stepTeam_inv (m : MatchSummary) :
    ∀ (team : List PlayerInfo) (mp : List (String × PStats)), InvWL mp →
      InvWL (team.foldl (fun mp p => updInMap mp p.name (updatePlayer m p)) mp) := by
  intro team
  induction team with
  | nil => intro mp h; exact h
  | cons p rest ih =>
      intro mp h
      rw [List.foldl_cons]
      refine ih _ (updInMap_inv (fun s hs => ?_) h)
      obtain ⟨h1, h2⟩ := updatePlayer_wl m p s
      rw [h1, h2, hs]
      omega

theorem stepMatch_inv {ign : String} {pteam : Nat} {ti : TournamentInfo}
    {m : MatchSummary} {team opp : List PlayerInfo}
    (h : InvWL ti.player_stats) :
    InvWL (stepMatch ign pteam ti m team opp).player_stats :=
  stepTeam_inv m team ti.player_stats h

theorem foldMatches_inv {lookup : String → Option DetailedMatch}
    {ign : String} {pteam : Nat} :
    ∀ {cluster : List MatchSummary} {ti ti' : TournamentInfo},
      foldMatches lookup ign pteam ti cluster = Except.ok ti' →
      InvWL ti.player_stats → InvWL ti'.player_stats := by
  intro cluster
  induction cluster with
  | nil =>
      intro ti ti' h hi
      cases h
      exact hi
  | cons m rest ih =>
      intro ti ti' h hi
      rw [foldMatches] at h
      split at h
      · cases h
      · exact ih h (stepMatch_inv hi)

theorem processTournament_played {lookup : String → Option DetailedMatch}
    {ign : String} {pteam idx : Nat} {cluster : List MatchSummary}
    {tr : TournamentResult}
    (h : processTournament lookup ign pteam idx cluster = Except.ok tr) :
    ∀ e ∈ tr.player_stats, ∃ s : PStats, e.2 = finalizeStats s ∧
      s.wins + s.losses = s.matches_played ∧ 0 < s.matches_played := by
  unfold processTournament at h
  dsimp only at h
  split at h
  · cases h
  · rename_i ti heq
    cases h
    intro e he
    obtain ⟨e₀, he₀, rfl⟩ := List.mem_map.mp he
    obtain ⟨hsum, hpos⟩ := foldMatches_inv heq (by intro e h; cases h) e₀ he₀
    exact ⟨e₀.2, rfl, hsum, hpos⟩

theorem analyzeClusters_mem {lookup : String → Option DetailedMatch}
    {ign : String} {pteam : Nat} :
    ∀ {clusters : List (List MatchSummary)} {idx : Nat}
      {res : List TournamentResult},
      analyzeClusters lookup ign pteam idx clusters = Except.ok res →
      ∀ t ∈ res, ∃ i c, c ∈ clusters ∧
        processTournament lookup ign pteam i c = Except.ok t := by
  intro clusters
  induction clusters with
  | nil =>
      intro idx res h t ht
      cases h
      cases ht
  | cons c rest ih =>
      intro idx res h t ht
      rw [analyzeClusters] at h
      split at h
      · cases h
      · split at h
        · cases h
        · rename_i x1 tr heq1 x2 trs heq2
          cases h
          rcases List.mem_cons.mp ht with rfl | hmem
          · exact ⟨idx, c, List.mem_cons_self _ _, heq1⟩
          · obtain ⟨i, c', hc', hp⟩ := ih heq2 t hmem
            exact ⟨i, c', List.mem_cons_of_mem _ hc', hp⟩

theorem finalizeStats_props {s : PStats} (hpos : 0 < s.matches_played) :
    (finalizeStats s).core = s ∧
    ∃ a, (finalizeStats s).avgs = some a ∧
      a.win_rate = 100 * (s.wins : Rat) / (s.matches_played : Rat) := by
  unfold finalizeStats
  rw [if_pos hpos]
  refine ⟨rfl, _, rfl, ?_⟩
  show (s.wins : Rat) / (s.matches_played : Rat) * 100 = _
  ring

/-- Claim C10: in every finalized aggregate of a successful run,
wins + losses = matches_played and win_rate = 100 · wins / matches_played,
because every processed team-side appearance whose result string is not
exactly `win` (draws, `Unknown`, anything else) increments losses. -/
theorem claim_c10 :
    (∀ (m : MatchSummary) (p : PlayerInfo) (s : PStats),
      (updatePlayer m p s).losses =
        (if p.result = "win" then s.losses else s.losses + 1) ∧
      (updatePlayer m p s).wins =
        (if p.result = "win" then s.wins + 1 else s.wins)) ∧
    (∀ (lookup : String → Option DetailedMatch) (d : InputData)
      (res : List TournamentResult),
      analyze_tournaments lookup d = Except.ok res →
      ∀ t ∈ res, ∀ e ∈ t.player_stats,
        e.2.core.wins + e.2.core.losses = e.2.core.matches_played ∧
        0 < e.2.core.matches_played ∧
        ∃ a, e.2.avgs = some a ∧
          a.win_rate = 100 * (e.2.core.wins : Rat) / (e.2.core.matches_played : Rat)) := by
  constructor
  · exact fun m p s => ⟨rfl, rfl⟩
  · intro lookup d res h t ht e he
    unfold analyze_tournaments at h
    split at h
    · cases h
    · obtain ⟨i, c, _, hp⟩ := analyzeClusters_mem h t ht
      obtain ⟨s, hfin, hsum, hpos⟩ := processTournament_played hp e he
      obtain ⟨hcore, a, ha, hwr⟩ := finalizeStats_props hpos
      rw [hfin, hcore]
      exact ⟨hsum, hpos, a, ha, hwr⟩

/-- Witness for claim C10: on the concrete input `dC10w`, whose second
team-side player draws, the first finalized aggregate entry satisfies the
win/loss bookkeeping identities. -/
theorem claim_c10_witness :
    ∃ t ∈ resC10w, ∃ e ∈ t.player_stats,
      e.2.core.wins + e.2.core.losses = e.2.core.matches_played ∧
      0 < e.2.core.matches_played ∧
      ∃ a, e.2.avgs = some a ∧
        a.win_rate = 100 * (e.2.core.wins : Rat) / (e.2.core.matches_played : Rat) :=
  ⟨resC10w.headD default, by with_unfolding_all decide,
   (resC10w.headD default).player_stats.headD default, by with_unfolding_all decide,
   claim_c10.2 noDetail dC10w resC10w (by with_unfolding_all rfl)
     (resC10w.headD default) (by with_unfolding_all decide)
     ((resC10w.headD default).player_stats.headD default)
     (by with_unfolding_all decide)⟩

theorem alookup_none_keys {α : Type} {l : List (String × α)} {k : String}
    (h : alookup l k = none) : ∀ e ∈ l, e.1 ≠ k := by
  induction l with
  | nil => intro e he; cases he
  | cons e rest ih =>
      obtain ⟨ek, ev⟩ := e
      intro e' he'
      rw [alookup] at h
      split at h
      · cases h
      · rcases List.mem_cons.mp he' with rfl | he'
        · assumption
        · exact ih h e' he'

theorem updInMap_keys (mp : List (String × PStats)) (nm : String)
    (f : PStats → PStats) :
    (updInMap mp nm f).map Prod.fst = mp.map Prod.fst ∨
    ((updInMap mp nm f).map Prod.fst = mp.map Prod.fst ++ [nm] ∧
      alookup mp nm = none) := by
  unfold updInMap
  split
  · left
    rw [List.map_map]
    refine List.map_congr_left fun e _ => ?_
    by_cases hk : e.1 = nm
    · rw [Function.comp_apply, if_pos hk, hk]
    · rw [Function.comp_apply, if_neg hk]
  · right
    rename_i h
    constructor
    · simp
    · exact Option.not_isSome_iff_eq_none.mp h

theorem updInMap_keys_nodup {mp : List (String × PStats)} {nm : String}
    {f : PStats → PStats} (h : (mp.map Prod.fst).Nodup) :
    ((updInMap mp nm f).map Prod.fst).Nodup := by
  rcases updInMap_keys mp nm f with hk | ⟨hk, hnone⟩
  · rw [hk]; exact h
  · rw [hk]
    rw [List.nodup_append]
    refine ⟨h, List.nodup_singleton nm, ?_⟩
    intro x hx hx1
    rw [List.mem_singleton] at hx1
    subst hx1
    obtain ⟨e, he, rfl⟩ := List.mem_map.mp hx
    exact alookup_none_keys hnone e he rfl

theorem stepTeam_keys_nodup (m : MatchSummary) :
    ∀ (team : List PlayerInfo) (mp : List (String × PStats)),
      (mp.map Prod.fst).Nodup →
      ((team.foldl (fun mp p => updInMap mp p.name (updatePlayer m p)) mp).map
        Prod.fst).Nodup := by
  intro team
  induction team with
  | nil => intro mp h; exact h
  | cons p rest ih =>
      intro mp h
      rw [List.foldl_cons]
      exact ih _ (updInMap_keys_nodup h)

theorem foldMatches_keys_nodup {lookup : String → Option DetailedMatch}
    {ign : String} {pteam : Nat} :
    ∀ {cluster : List MatchSummary} {ti ti' : TournamentInfo},
      foldMatches lookup ign pteam ti cluster = Except.ok ti' →
      (ti.player_stats.map Prod.fst).Nodup →
      (ti'.player_stats.map Prod.fst).Nodup := by
  intro cluster
  induction cluster with
  | nil => intro ti ti' h hi; cases h; exact hi
  | cons m rest ih =>
      intro ti ti' h hi
      rw [foldMatches] at h
      split at h
      · cases h
      · exact ih h (stepTeam_keys_nodup m _ _ hi)

theorem alookup_of_mem_nodup {mp : List (String × PStats)}
    (h : (mp.map Prod.fst).Nodup) :
    ∀ e ∈ mp, alookup mp e.1 = some e.2 := by
  induction mp with
  | nil => intro e he; cases he
  | cons e₀ rest ih =>
      intro e he
      obtain ⟨ek, ev⟩ := e₀
      rw [List.map_cons, List.nodup_cons] at h
      rcases List.mem_cons.mp he with rfl | hmem
      · rw [alookup, if_pos rfl]
      · rw [alookup]
        have hne : ek ≠ e.1 := by
          intro hc
          apply h.1
          have hmm : e.1 ∈ rest.map Prod.fst := List.mem_map.mpr ⟨e, hmem, rfl⟩
          rwa [← hc] at hmm
        rw [if_neg hne]
        exact ih h.2 e hmem

theorem alookup_map_upd {mp : List (String × PStats)} {nm : String}
    (f : PStats → PStats) {s : PStats} (h : alookup mp nm = some s) :
    alookup (mp.map (fun e => if e.1 = nm then (e.1, f e.2) else e)) nm =
      some (f s) := by
  induction mp with
  | nil => cases h
  | cons e rest ih =>
      obtain ⟨ek, ev⟩ := e
      simp only [List.map_cons]
      by_cases hk : ek = nm
      · subst hk
        rw [alookup, if_pos rfl] at h
        cases h
        rw [if_pos rfl, alookup, if_pos rfl]
      · rw [alookup, if_neg hk] at h
        rw [if_neg hk, alookup, if_neg hk]
        exact ih h

theorem alookup_map_upd_other {mp : List (String × PStats)} {nm k : String}
    (f : PStats → PStats) (hk : k ≠ nm) :
    alookup (mp.map (fun e => if e.1 = nm then (e.1, f e.2) else e)) k =
      alookup mp k := by
  induction mp with
  | nil => rfl
  | cons e rest ih =>
      obtain ⟨ek, ev⟩ := e
      simp only [List.map_cons]
      by_cases hek : ek = nm
      · subst hek
        rw [if_pos rfl, alookup, alookup,
            if_neg (fun h => hk h.symm), if_neg (fun h => hk h.symm)]
        exact ih
      · rw [if_neg hek, alookup, alookup]
        split
        · rfl
        · exact ih

theorem alookup_updInMap_same (mp : List (String × PStats)) (nm : String)
    (f : PStats → PStats) :
    alookup (updInMap mp nm f) nm =
      some (f ((alookup mp nm).getD initPStats)) := by
  unfold updInMap
  split
  · rename_i h
    obtain ⟨s, hs⟩ := Option.isSome_iff_exists.mp h
    rw [hs]
    exact alookup_map_upd f hs
  · rename_i h
    have hn := Option.not_isSome_iff_eq_none.mp h
    rw [hn, alookup_append, hn, alookup, if_pos rfl]
    rfl

theorem alookup_updInMap_other (mp : List (String × PStats)) (nm k : String)
    (f : PStats → PStats) (hk : k ≠ nm) :
    alookup (updInMap mp nm f) k = alookup mp k := by
  unfold updInMap
  split
  · exact alookup_map_upd_other f hk
  · rw [alookup_append]
    split
    · rename_i v heq
      exact heq.symm
    · rename_i heq
      rw [alookup, if_neg (fun h => hk h.symm)]
      exact heq.symm

theorem stepTeam_alookup (m : MatchSummary) :
    ∀ (team : List PlayerInfo) (mp : List (String × PStats)),
      (team.map PlayerInfo.name).Nodup →
      ∀ n : String,
        alookup (team.foldl (fun mp p => updInMap mp p.name (updatePlayer m p)) mp) n =
          match team.find? (fun p => p.name == n) with
          | some p => some (updatePlayer m p ((alookup mp n).getD initPStats))
          | none => alookup mp n := by
  intro team
  induction team with
  | nil => intro mp _ n; rfl
  | cons p rest ih =>
      intro mp hnd n
      rw [List.map_cons, List.nodup_cons] at hnd
      rw [List.foldl_cons]
      by_cases hn : p.name = n
      · rw [List.find?_cons_of_pos _ (by rw [beq_iff_eq]; exact hn)]
        have hrest : rest.find? (fun q => q.name == n) = none := by
          rw [List.find?_eq_none]
          intro q hq hbe
          rw [beq_iff_eq] at hbe
          apply hnd.1
          rw [hn, ← hbe]
          exact List.mem_map_of_mem PlayerInfo.name hq
        rw [ih _ hnd.2 n, hrest]
        rw [← hn, alookup_updInMap_same]
      · rw [List.find?_cons_of_neg _ (by rw [beq_iff_eq]; exact hn)]
        rw [ih _ hnd.2 n]
        rw [alookup_updInMap_other _ _ _ _ (fun h => hn h.symm)]

theorem specPerfLog_append (lookup : String → Option DetailedMatch)
    (ign : String) (pt : Nat) (processed : List MatchSummary)
    (m : MatchSummary) (n : String) :
    specPerfLog lookup ign pt (processed ++ [m]) n =
      specPerfLog lookup ign pt processed n ++ specPerfLog lookup ign pt [m] n := by
  unfold specPerfLog
  rw [List.filterMap_append]

theorem specPerfLog_single {lookup : String → Option DetailedMatch}
    {ign : String} {pt : Nat} {m : MatchSummary} {te op : List PlayerInfo}
    (h : resolveMatch lookup ign pt m = Except.ok (te, op)) (n : String) :
    specPerfLog lookup ign pt [m] n =
      match te.find? (fun p => p.name == n) with
      | some p => [mkPerf m p]
      | none => [] := by
  have hts : teamSideOf lookup ign pt m = some te := by
    unfold teamSideOf
    rw [h]
  unfold specPerfLog
  rw [List.filterMap_cons, List.filterMap_nil, hts]
  cases hf : te.find? (fun p => p.name == n) with
  | none => simp [Option.bind, hf]
  | some p => simp [Option.bind, hf]

theorem perfInv_step {lookup : String → Option DetailedMatch} {ign : String}
    {pt : Nat} {processed : List MatchSummary} {m : MatchSummary}
    {te op : List PlayerInfo}
    (hres : resolveMatch lookup ign pt m = Except.ok (te, op))
    (hnd : (te.map PlayerInfo.name).Nodup) {ti : TournamentInfo}
    (hinv : PerfInv lookup ign pt processed ti.player_stats) :
    PerfInv lookup ign pt (processed ++ [m])
      (stepMatch ign pt ti m te op).player_stats := by
  intro n
  have hstep : (stepMatch ign pt ti m te op).player_stats =
      te.foldl (fun mp p => updInMap mp p.name (updatePlayer m p))
        ti.player_stats := rfl
  rw [hstep, stepTeam_alookup m te ti.player_stats hnd n,
      specPerfLog_append, specPerfLog_single hres n]
  cases hf : te.find? (fun p => p.name == n) with
  | some p =>
      constructor
      · intro s hs
        cases hs
        cases halo : alookup ti.player_stats n with
        | some s₀ =>
            obtain ⟨hperf, hlen⟩ := (hinv n).1 s₀ halo
            constructor
            · show s₀.match_performances ++ [mkPerf m p] =
                specPerfLog lookup ign pt processed n ++ [mkPerf m p]
              rw [hperf]
            · show s₀.matches_played + 1 =
                (specPerfLog lookup ign pt processed n ++ [mkPerf m p]).length
              rw [hlen, List.length_append, List.length_singleton]
        | none =>
            have hnil := (hinv n).2 halo
            constructor
            · show initPStats.match_performances ++ [mkPerf m p] =
                specPerfLog lookup ign pt processed n ++ [mkPerf m p]
              rw [hnil]
              rfl
            · show initPStats.matches_played + 1 =
                (specPerfLog lookup ign pt processed n ++ [mkPerf m p]).length
              rw [hnil]
              rfl
      · intro h0
        cases h0
  | none =>
      rw [List.append_nil]
      exact hinv n

theorem foldMatches_perfInv {lookup : String → Option DetailedMatch}
    {ign : String} {pt : Nat} :
    ∀ {rest : List MatchSummary} {processed : List MatchSummary}
      {ti ti' : TournamentInfo},
      foldMatches lookup ign pt ti rest = Except.ok ti' →
      (∀ m ∈ rest, ∀ te ∈ (teamSideOf lookup ign pt m).toList,
        (te.map PlayerInfo.name).Nodup) →
      PerfInv lookup ign pt processed ti.player_stats →
      PerfInv lookup ign pt (processed ++ rest) ti'.player_stats := by
  intro rest
  induction rest with
  | nil =>
      intro processed ti ti' h _ hinv
      cases h
      simpa using hinv
  | cons m rest' ih =>
      intro processed ti ti' h hnd hinv
      rw [foldMatches] at h
      split at h
      · cases h
      · rename_i x team opp heq
        have hts : teamSideOf lookup ign pt m = some team := by
          unfold teamSideOf
          rw [heq]
        have hndm : (team.map PlayerInfo.name).Nodup := by
          refine hnd m (List.mem_cons_self _ _) team ?_
          rw [hts]
          exact List.mem_cons_self _ _
        have hstep := perfInv_step heq hndm hinv
        have := ih h (fun m' hm' => hnd m' (List.mem_cons_of_mem _ hm')) hstep
        simpa [List.append_assoc] using this

theorem finalizeStats_core (s : PStats) : (finalizeStats s).core = s := by
  unfold finalizeStats
  split <;> rfl

theorem processTournament_perfs {lookup : String → Option DetailedMatch}
    {ign : String} {pt idx : Nat} {cluster : List MatchSummary}
    {tr : TournamentResult}
    (h : processTournament lookup ign pt idx cluster = Except.ok tr)
    (hnd : ∀ m ∈ cluster, ∀ te ∈ (teamSideOf lookup ign pt m).toList,
      (te.map PlayerInfo.name).Nodup) :
    ∀ e ∈ tr.player_stats,
      e.2.core.match_performances = specPerfLog lookup ign pt cluster e.1 ∧
      e.2.core.match_performances.length = e.2.core.matches_played := by
  unfold processTournament at h
  dsimp only at h
  split at h
  · cases h
  · rename_i ti heq
    cases h
    intro e he
    obtain ⟨e₀, he₀, rfl⟩ := List.mem_map.mp he
    have hkeys : ((TournamentInfo.player_stats
        { id := idx + 1, start_date := (cluster.headD msDefault).timestamp,
          end_date := (cluster.getLastD msDefault).timestamp,
          match_count := cluster.length, matchInfos := [],
          player_stats := [] }).map Prod.fst).Nodup := List.nodup_nil
    have hnodup := foldMatches_keys_nodup heq hkeys
    have hinv0 : PerfInv lookup ign pt []
        (TournamentInfo.player_stats
          { id := idx + 1, start_date := (cluster.headD msDefault).timestamp,
            end_date := (cluster.getLastD msDefault).timestamp,
            match_count := cluster.length, matchInfos := [],
            player_stats := [] }) := by
      intro n
      constructor
      · intro s hs
        cases hs
      · intro _
        rfl
    have hinv := foldMatches_perfInv heq hnd hinv0
    rw [List.nil_append] at hinv
    have halo := alookup_of_mem_nodup hnodup e₀ he₀
    obtain ⟨hperf, hlen⟩ := (hinv e₀.1).1 e₀.2 halo
    dsimp only
    rw [finalizeStats_core]
    refine ⟨hperf, ?_⟩
    rw [hperf, hlen]

/-- Counterexample to claim C8: on the concrete input `dC8cx`, whose single
match lists the reference player's handle twice on the team side, the run
produces one tournament of one match in which player `Q` appeared, yet `Q`'s
performance log holds two snapshots (both for match `m_1`) and
matches_played is 2 — not exactly one snapshot per match appeared in. -/
theorem claim_c8_counterexample :
    ((getPlayerFinal (analyze_tournaments noDetail dC8cx) 0 "Q").map
      (fun fs => (fs.core.matches_played,
        fs.core.match_performances.map (fun q => q.match_id))) =
      some (2, ["m_1", "m_1"])) ∧
    ((analyze_tournaments noDetail dC8cx).toOption.map
      (fun res => (res.length, res.map (fun t => t.match_count))) =
      some (1, [1])) := by
  constructor <;> with_unfolding_all decide

/-- Claim C8 (amended): in every finalized tournament aggregate of a
successful run, provided each resolved team side lists each player name at
most once, every player's match_performances log equals the
specification-side log over that tournament's cluster — exactly one
snapshot per cluster match whose team side contains the player, taken in
cluster order (the cluster being sorted ascending by timestamp, snapshots
are chronological) — and its length equals matches_played; this holds for
every resolver behaviour satisfying the at-most-once condition, and without
it a duplicated name yields one snapshot per occurrence instead. -/
theorem claim_c8 (lookup : String → Option DetailedMatch) (d : InputData)
    (pt : Nat) (res : List TournamentResult)
    (hpt : findPlayerTeam d = some pt)
    (hok : analyze_tournaments lookup d = Except.ok res)
    (hnd : ∀ c ∈ cluster_tournament_matches d, ∀ m ∈ c,
      ∀ te ∈ (teamSideOf lookup d.ign pt m).toList,
      (te.map PlayerInfo.name).Nodup) :
    ∀ t ∈ res, ∃ c ∈ cluster_tournament_matches d,
      c.Pairwise tsLe ∧
      ∀ e ∈ t.player_stats,
        e.2.core.match_performances = specPerfLog lookup d.ign pt c e.1 ∧
        e.2.core.match_performances.length = e.2.core.matches_played := by
  intro t ht
  unfold analyze_tournaments at hok
  rw [hpt] at hok
  obtain ⟨i, c, hc, hp⟩ := analyzeClusters_mem hok t ht
  exact ⟨c, hc, clusters_sorted d c hc, processTournament_perfs hp (hnd c hc)⟩

/-- Witness for claim C8 (amended): on the concrete input `dC8w` every
resolved team side lists each name once, so the first tournament's
finalized logs match the specification-side log of its cluster. -/
theorem claim_c8_witness :
    ∃ c ∈ cluster_tournament_matches dC8w,
      c.Pairwise tsLe ∧
      ∀ e ∈ (resC8w.headD default).player_stats,
        e.2.core.match_performances = specPerfLog noDetail dC8w.ign 0 c e.1 ∧
        e.2.core.match_performances.length = e.2.core.matches_played :=
  claim_c8 noDetail dC8w 0 resC8w (by with_unfolding_all rfl)
    (by with_unfolding_all rfl) (by with_unfolding_all decide)
    (resC8w.headD default) (by with_unfolding_all decide)
